import Mathlib

/-!
Verification of the MarketAgent indicator pipeline.

This file shallowly embeds the indicator normalization and presentation
pipeline of the repository:

* `src/market_agent/datamodel/indicators.py` (value formatters and the
  `as_dict` serializers),
* `src/market_agent/datasources/finnhub/finnhub_indicator_fetcher.py`
  (the derivation engine: `build_base_indicators`, `_metric_float`,
  `_latest_row`, `_summarise_recommendation`, ...),
* the `_classify_indicator` copies in `src/frontend/web/server.py`,
  `src/frontend/cli/main.py` and
  `src/market_agent/analysis/stock/single_stock.py`,
* the label generator of `src/frontend/web/server.py`
  (`_label_for_key`, `_to_title_camel`, `_shorten_label`),
* `StockIndicatorSnapshot.as_dict` of `src/market_agent/api/indicators.py`.

Modelling conventions:

* Python scalar values are embedded as `PyVal`: `vnone` is Python `None`,
  `vint` and `vfloat` are Python `int` and `float` (floats are modelled as
  exact rationals; the concrete values appearing in the claims are exactly
  representable and away from rounding ties), `vstr` is `str`, and `vdict`
  is a `dict` whose items are kept as an insertion-ordered association list.
  Values on which Python `float(value)` fails (lists, objects, non-numeric
  strings) are represented by `vstr`, `vdict` or `vnone`; the numeric values
  the provider delivers are JSON numbers, so `toFloatQ` models
  `_to_optional_float` and `_to_float` by succeeding exactly on numbers.
* Rational arithmetic is written with kernel-computable primitives
  (`ratAdd`, `ratSub`, `ratMul`, `ratDiv`, `ratAbs` built on `mkRat`);
  the lemmas `ratAdd_eq` and friends identify them with the field
  operations of `Rat`.
* Python `dict` operations are embedded on association lists:
  `dictGet` and `pyGet` are `d.get(k)`, `updateOne` is the assignment of
  one key, and `dictUpdate` is `d.update(other)`.
* String comparison (`period >= latest_period`) is Python's code-point
  lexicographic order, embedded as `strLeB`; substring and prefix tests on
  keys are `strContains` and `strStartsWith`; `lowerStr` is `str.lower`
  (the indicator keys are ASCII).
* The wall-clock rendering done by `_format_timestamp` (zoneinfo plus
  wall-clock formatting) is kept abstract: the embedding takes a rendering
  function `tsR : Rat -> Option String`, where `Option.none` stands for the
  `OverflowError`/`OSError`/`ValueError` branch that returns the raw value.
  No claim depends on the rendered text.
* Python `str(x)` for non-string `x` (used by `_latest_row` on the `period`
  field) is likewise kept abstract as a parameter `fps : PyVal -> String`;
  `str` of a string is the string itself.
-/

/-! ### Embedded Python values -/

/-- Embeds the Python scalar/dict values flowing through the pipeline. -/
inductive PyVal where
  | vnone : PyVal
  | vint (n : Int) : PyVal
  | vfloat (q : Rat) : PyVal
  | vstr (s : String) : PyVal
  | vdict (entries : List (String × PyVal)) : PyVal

/-- `value is None`. -/
def PyVal.isNone : PyVal → Bool
  | PyVal.vnone => true
  | _ => false

/-- Python truthiness of an embedded value (`if value:`). -/
def PyVal.truthy : PyVal → Bool
  | PyVal.vnone => false
  | PyVal.vint n => n ≠ 0
  | PyVal.vfloat q => q ≠ 0
  | PyVal.vstr s => s ≠ ""
  | PyVal.vdict entries => !entries.isEmpty

/-- Embeds both `_to_float` (datamodel) and `_to_optional_float` (fetcher):
`float(value)` guarded by a `TypeError`/`ValueError` handler.  It succeeds
exactly on embedded numbers. -/
def toFloatQ : PyVal → Option Rat
  | PyVal.vint n => some (mkRat n 1)
  | PyVal.vfloat q => some q
  | _ => none

/-- Embeds `_to_optional_int`: `int(value)` guarded by the same handler.
`int` of a float truncates toward zero. -/
def toIntZ : PyVal → Option Int
  | PyVal.vint n => some n
  | PyVal.vfloat q => some (Int.tdiv q.num (q.den : Int))
  | _ => none

/-- `d.get(k)` where the caller distinguishes "absent": association-list
lookup in insertion order. -/
def dictGet (d : List (String × PyVal)) (k : String) : Option PyVal :=
  (d.find? (fun p => p.1 = k)).map (fun p => p.2)

/-- `d.get(k)` as Python sees it: absent keys give `None`. -/
def pyGet (d : List (String × PyVal)) (k : String) : PyVal :=
  (dictGet d k).getD PyVal.vnone

/-- `k in d`. -/
def containsKey (d : List (String × PyVal)) (k : String) : Bool :=
  d.any (fun p => p.1 = k)

/-- `d[k] = v`: replace in place when the key exists, else append. -/
def updateOne {α : Type} (d : List (String × α)) (k : String) (v : α) :
    List (String × α) :=
  if d.any (fun p => p.1 = k) then
    d.map (fun p => if p.1 = k then (k, v) else p)
  else d ++ [(k, v)]

/-- `d.update(e)`. -/
def dictUpdate {α : Type} (d e : List (String × α)) : List (String × α) :=
  e.foldl (fun acc p => updateOne acc p.1 p.2) d

/-- Python `a or b` on embedded values: the first truthy operand, else `b`. -/
def pyOr (a b : PyVal) : PyVal :=
  if a.truthy then a else b

/-- Python `str(value)`: identity on strings, abstract (`fps`) elsewhere. -/
def pyStr (fps : PyVal → String) : PyVal → String
  | PyVal.vstr s => s
  | v => fps v

/-! ### Kernel-computable rational arithmetic

The rational operations registered on `Rat` are marked irreducible, which
blocks `decide`-style evaluation of the pipeline on concrete inputs.  The
definitions below compute with `mkRat` directly; the `_eq` lemmas identify
them with the field structure of `Rat`. -/

/-- Addition on rationals via `mkRat`. -/
def ratAdd (a b : Rat) : Rat := mkRat (a.num * b.den + b.num * a.den) (a.den * b.den)

/-- Subtraction on rationals via `mkRat`. -/
def ratSub (a b : Rat) : Rat := mkRat (a.num * b.den - b.num * a.den) (a.den * b.den)

/-- Multiplication on rationals via `mkRat`. -/
def ratMul (a b : Rat) : Rat := mkRat (a.num * b.num) (a.den * b.den)

/-- Inverse on rationals via `mkRat` (zero maps to zero, as in `Rat`). -/
def ratInv (a : Rat) : Rat :=
  if a.num < 0 then mkRat (-(a.den : Int)) a.num.natAbs
  else mkRat (a.den : Int) a.num.natAbs

/-- Division on rationals via `mkRat`. -/
def ratDiv (a b : Rat) : Rat := ratMul a (ratInv b)

/-- Negation on rationals via `mkRat`. -/
def ratNeg (a : Rat) : Rat := mkRat (-a.num) a.den

/-- Absolute value on rationals via `mkRat`. -/
def ratAbs (a : Rat) : Rat := if a.num < 0 then ratNeg a else a

theorem ratAdd_eq (a b : Rat) : ratAdd a b = a + b := by
  have ha : ((a.den : ℚ)) ≠ 0 := by
    exact_mod_cast a.den_nz
  have hb : ((b.den : ℚ)) ≠ 0 := by
    exact_mod_cast b.den_nz
  rw [ratAdd, Rat.mkRat_eq_div]
  conv_rhs => rw [← Rat.num_div_den a, ← Rat.num_div_den b]
  push_cast
  field_simp

theorem ratSub_eq (a b : Rat) : ratSub a b = a - b := by
  have ha : ((a.den : ℚ)) ≠ 0 := by
    exact_mod_cast a.den_nz
  have hb : ((b.den : ℚ)) ≠ 0 := by
    exact_mod_cast b.den_nz
  rw [ratSub, Rat.mkRat_eq_div]
  conv_rhs => rw [← Rat.num_div_den a, ← Rat.num_div_den b]
  push_cast
  field_simp
  ring

theorem ratMul_eq (a b : Rat) : ratMul a b = a * b := by
  have ha : ((a.den : ℚ)) ≠ 0 := by
    exact_mod_cast a.den_nz
  have hb : ((b.den : ℚ)) ≠ 0 := by
    exact_mod_cast b.den_nz
  rw [ratMul, Rat.mkRat_eq_div]
  conv_rhs => rw [← Rat.num_div_den a, ← Rat.num_div_den b]
  push_cast
  field_simp

theorem ratInv_eq (a : Rat) : ratInv a = a⁻¹ := by
  rw [ratInv, Rat.inv_def', Rat.divInt_eq_div]
  by_cases h : a.num < 0
  · rw [if_pos h, Rat.mkRat_eq_div]
    have h1 : ((a.num.natAbs : ℕ) : ℚ) = -(a.num : ℚ) := by
      rw [Nat.cast_natAbs, abs_of_neg h]
      push_cast
      try ring
    rw [h1]
    push_cast
    rw [neg_div_neg_eq]
  · rw [if_neg h, Rat.mkRat_eq_div]
    have h1 : ((a.num.natAbs : ℕ) : ℚ) = (a.num : ℚ) := by
      rw [Nat.cast_natAbs, abs_of_nonneg (not_lt.mp h)]
    rw [h1]

theorem ratDiv_eq (a b : Rat) : ratDiv a b = a / b := by
  rw [ratDiv, ratMul_eq, ratInv_eq, div_eq_mul_inv]

theorem ratNeg_eq (a : Rat) : ratNeg a = -a := by
  rw [ratNeg, Rat.mkRat_eq_div]
  conv_rhs => rw [← Rat.num_div_den a]
  push_cast
  rw [neg_div]

theorem ratAbs_eq (a : Rat) : ratAbs a = |a| := by
  rw [ratAbs]
  by_cases h : a.num < 0
  · rw [if_pos h, ratNeg_eq, abs_of_neg]
    exact_mod_cast Rat.num_neg.mp h
  · rw [if_neg h, abs_of_nonneg]
    exact_mod_cast Rat.num_nonneg.mp (not_lt.mp h)

/-! ### Kernel-computable string utilities -/

/-- `str.lower()` (the indicator keys are ASCII). -/
def lowerStr (s : String) : String := ⟨s.data.map Char.toLower⟩

/-- Code-point lexicographic order on character lists. -/
def lexLeChars : List Char → List Char → Bool
  | [], _ => true
  | _ :: _, [] => false
  | a :: as, b :: bs => if a = b then lexLeChars as bs else decide (a < b)

/-- Python string comparison `a <= b`: code-point lexicographic order. -/
def strLeB (a b : String) : Bool := lexLeChars a.data b.data

/-- Helper for substring search: does `pat` occur in the list? -/
def substrAt (pat : List Char) : List Char → Bool
  | [] => pat.isEmpty
  | c :: rest => List.isPrefixOf pat (c :: rest) || substrAt pat rest

/-- Python `pat in s` on strings. -/
def strContains (s pat : String) : Bool := substrAt pat.data s.data

/-- Python `s.startswith(pat)`. -/
def strStartsWith (s pat : String) : Bool := List.isPrefixOf pat.data s.data

/-! ### Two-decimal fixed-point rendering

Python renders numbers for display with a two-decimal fixed-point format.
`round2` is round-half-to-even at two decimals, `fmt2 q` the rendered text. -/

/-- Floor of a rational as an integer (denominators are positive, so
flooring division of the numerator by the denominator). -/
def ratFloor (q : Rat) : Int := Int.fdiv q.num (q.den : Int)

/-- Nearest integer to `q * 100`, ties to even (the rounding used by
Python's two-decimal fixed-point format on our exactly-represented
inputs). -/
def round2 (q : Rat) : Int :=
  let x : Rat := ratMul q (mkRat 100 1)
  let f : Int := ratFloor x
  let r : Rat := ratSub x (mkRat f 1)
  if r < mkRat 1 2 then f
  else if r > mkRat 1 2 then f + 1
  else if f % 2 = 0 then f else f + 1

/-- Two-decimal fixed-point rendering of a number (Python's two-decimal
fixed-point float format: `3.5` renders as the text `3.50`). -/
def fmt2 (q : Rat) : String :=
  let n := round2 q
  let sign := if n < 0 ∨ (n = 0 ∧ q < 0) then "-" else ""
  let m := n.natAbs
  let ip := m / 100
  let fp := m % 100
  sign ++ toString ip ++ "." ++ (if fp < 10 then "0" else "") ++ toString fp

example : fmt2 (mkRat 19 100) = "0.19" := by decide
example : fmt2 (mkRat 1250 1) = "1250.00" := by decide
example : fmt2 (mkRat 5 4) = "1.25" := by decide
example : fmt2 (mkRat (-7) 2) = "-3.50" := by decide

/-! ### Value formatters (`src/market_agent/datamodel/indicators.py`) -/

/-- `_format_currency`: dollar sign plus two-decimal fixed point; non-numeric
values pass through unchanged. -/
def formatCurrency (v : PyVal) : PyVal :=
  match toFloatQ v with
  | none => v
  | some q => PyVal.vstr ("$" ++ fmt2 q)

/-- The numeric branch of `_format_market_cap`: the provider reports market
cap in millions, so scale from that base and pick a T/B/M suffix with two
decimals. -/
def formatMarketCapQ (q : Rat) : String :=
  let a := ratAbs q
  if mkRat 1000000 1 ≤ a then fmt2 (ratDiv q (mkRat 1000000 1)) ++ "T"
  else if mkRat 1000 1 ≤ a then fmt2 (ratDiv q (mkRat 1000 1)) ++ "B"
  else fmt2 q ++ "M"

/-- `_format_market_cap`: non-numeric values pass through unchanged. -/
def formatMarketCap (v : PyVal) : PyVal :=
  match toFloatQ v with
  | none => v
  | some q => PyVal.vstr (formatMarketCapQ q)

/-- `_format_compact_currency`: dollar sign plus the compact market-cap
rendering.  On the numeric path `_format_market_cap` always produces a
string, so the `compact is not None` guard of the source is always taken. -/
def formatCompactCurrency (v : PyVal) : PyVal :=
  match toFloatQ v with
  | none => v
  | some q => PyVal.vstr ("$" ++ formatMarketCapQ q)

/-- `_format_percent`: two-decimal fixed point plus a percent sign. -/
def formatPercent (v : PyVal) : PyVal :=
  match toFloatQ v with
  | none => v
  | some q => PyVal.vstr (fmt2 q ++ "%")

/-- `_format_ratio`: two-decimal fixed point plus an `x` suffix. -/
def formatRatioValue (v : PyVal) : PyVal :=
  match toFloatQ v with
  | none => v
  | some q => PyVal.vstr (fmt2 q ++ "x")

/-- The numeric branch of `_format_shares`: scale to K/M/B with two decimals
and append a shares suffix. -/
def formatSharesQ (q : Rat) : String :=
  let a := ratAbs q
  if mkRat 1000000000 1 ≤ a then fmt2 (ratDiv q (mkRat 1000000000 1)) ++ "B shares"
  else if mkRat 1000000 1 ≤ a then fmt2 (ratDiv q (mkRat 1000000 1)) ++ "M shares"
  else if mkRat 1000 1 ≤ a then fmt2 (ratDiv q (mkRat 1000 1)) ++ "K shares"
  else fmt2 q ++ " shares"

/-- `_format_shares`: non-numeric values pass through unchanged. -/
def formatShares (v : PyVal) : PyVal :=
  match toFloatQ v with
  | none => v
  | some q => PyVal.vstr (formatSharesQ q)

/-- `_format_shares_from_millions`: multiply by a million first. -/
def formatSharesFromMillions (v : PyVal) : PyVal :=
  match toFloatQ v with
  | none => v
  | some q => PyVal.vstr (formatSharesQ (ratMul q (mkRat 1000000 1)))

/-- `_format_timestamp`: interpret the value as epoch seconds and render a
wall-clock string via the abstract renderer `tsR`; `tsR q = none` models the
conversion failure branch, which passes the raw value through. -/
def formatTimestamp (tsR : Rat → Option String) (v : PyVal) : PyVal :=
  match toFloatQ v with
  | none => v
  | some q =>
    match tsR q with
    | none => v
    | some s => PyVal.vstr s

/-- `_format_metric_value`: keyword-driven formatting for provider metric
keys; `none` means no rule matched and the caller falls through to the
default case. -/
def formatMetricValue (key : String) (v : PyVal) : Option PyVal :=
  if v.isNone then none
  else
    if key = "10DayAverageTradingVolume" ∨ key = "3MonthAverageTradingVolume" then
      some (formatSharesFromMillions v)
    else if strContains (lowerStr key) "marketcapitalization" then
      some (formatCompactCurrency v)
    else if strContains (lowerStr key) "weekhigh" ∨ strContains (lowerStr key) "weeklow" then
      some (formatCurrency v)
    else if ["pershare", "eps", "netincomeemployee"].any
        (fun t => strContains (lowerStr key) t) then
      some (formatCurrency v)
    else if ["currentratio", "debt/equity", "totaldebt/totalequity", "ev/",
        "coverage"].any (fun t => strContains (lowerStr key) t)
        ∨ strStartsWith (lowerStr key) "pe" then
      some (formatRatioValue v)
    else if ["return", "growth", "margin", "cagr", "yoy", "payout",
        "pricerelativetosp500", "std"].any (fun t => strContains (lowerStr key) t) then
      some (formatPercent v)
    else none

/-- `_format_base_value`: the full per-key formatting policy for the base
indicator map. -/
def formatBaseValue (tsR : Rat → Option String) (key : String) (v : PyVal) :
    PyVal :=
  if v.isNone then PyVal.vnone
  else if key = "quote_timestamp" then formatTimestamp tsR v
  else if key = "rsi" then formatPercent v
  else if key = "macd" then formatCurrency v
  else if key ∈ ["open_price", "high_price", "low_price", "close_price",
      "previous_close"] then formatCurrency v
  else if key ∈ ["volume"] then formatShares v
  else if key ∈ ["short_interest_pct_float", "fcf_margin", "cash_conversion"] then
    formatPercent v
  else if key ∈ ["beta"] then formatRatioValue v
  else if key ∈ ["market_cap", "enterprise_value", "cash_and_equivalents",
      "total_debt", "capex", "operating_cash_flow", "free_cash_flow"] then
    formatCompactCurrency v
  else
    match formatMetricValue key v with
    | some formatted => formatted
    | none =>
      match v with
      | PyVal.vfloat q => PyVal.vstr (fmt2 q)
      | _ => v

/-- `_format_analysis_value`: the per-key formatting policy for the analysis
indicator map. -/
def formatAnalysisValue (key : String) (v : PyVal) : PyVal :=
  if v.isNone then PyVal.vnone
  else if key = "moving_averages" then
    match v with
    | PyVal.vdict entries =>
      PyVal.vdict (entries.map (fun p => (p.1, formatCurrency p.2)))
    | _ =>
      if key = "rsi" then formatPercent v
      else if key = "macd" then formatCurrency v
      else if key = "beta" then formatRatioValue v
      else v
  else if key = "rsi" then formatPercent v
  else if key = "macd" then formatCurrency v
  else if key = "beta" then formatRatioValue v
  else v

example : formatBaseValue (fun _ => none) "market_cap"
    (PyVal.vfloat (mkRat 1250000000 1)) = PyVal.vstr "$1250.00T" := rfl
example : formatBaseValue (fun _ => none) "market_cap"
    (PyVal.vfloat (mkRat 1250 1)) = PyVal.vstr "$1.25B" := rfl
example : formatBaseValue (fun _ => none) "fcf_margin"
    (PyVal.vfloat (mkRat 19 100)) = PyVal.vstr "0.19%" := rfl

/-! ### Indicator models and serialization
(`src/market_agent/datamodel/indicators.py`, `src/market_agent/api/indicators.py`) -/

/-- `StockBaseIndicators`: optional numeric fields plus the free-form
`extra` mapping. -/
structure StockBaseIndicators where
  symbol : String
  open_price : Option Rat := none
  high_price : Option Rat := none
  low_price : Option Rat := none
  close_price : Option Rat := none
  volume : Option Int := none
  market_cap : Option Rat := none
  enterprise_value : Option Rat := none
  beta : Option Rat := none
  short_interest_pct_float : Option Rat := none
  cash_and_equivalents : Option Rat := none
  total_debt : Option Rat := none
  capex : Option Rat := none
  operating_cash_flow : Option Rat := none
  free_cash_flow : Option Rat := none
  fcf_margin : Option Rat := none
  cash_conversion : Option Rat := none
  extra : List (String × PyVal) := []

/-- An optional float field as Python stores it in the `data` dict. -/
def optFloat : Option Rat → PyVal
  | none => PyVal.vnone
  | some q => PyVal.vfloat q

/-- An optional int field as Python stores it in the `data` dict. -/
def optInt : Option Int → PyVal
  | none => PyVal.vnone
  | some n => PyVal.vint n

/-- The `data` dict literal built at the start of
`StockBaseIndicators.as_dict`. -/
def baseData (b : StockBaseIndicators) : List (String × PyVal) :=
  [("symbol", PyVal.vstr b.symbol),
   ("open_price", optFloat b.open_price),
   ("high_price", optFloat b.high_price),
   ("low_price", optFloat b.low_price),
   ("close_price", optFloat b.close_price),
   ("volume", optInt b.volume),
   ("market_cap", optFloat b.market_cap),
   ("enterprise_value", optFloat b.enterprise_value),
   ("beta", optFloat b.beta),
   ("short_interest_pct_float", optFloat b.short_interest_pct_float),
   ("cash_and_equivalents", optFloat b.cash_and_equivalents),
   ("total_debt", optFloat b.total_debt),
   ("capex", optFloat b.capex),
   ("operating_cash_flow", optFloat b.operating_cash_flow),
   ("free_cash_flow", optFloat b.free_cash_flow),
   ("fcf_margin", optFloat b.fcf_margin),
   ("cash_conversion", optFloat b.cash_conversion)]

/-- The `ordered_keys` list of `StockBaseIndicators.as_dict`. -/
def orderedKeys : List String :=
  ["symbol", "quote_timestamp", "open_price", "high_price", "low_price",
   "close_price", "previous_close", "volume", "market_cap",
   "enterprise_value", "beta", "short_interest_pct_float",
   "cash_and_equivalents", "total_debt", "capex", "operating_cash_flow",
   "free_cash_flow", "fcf_margin", "cash_conversion"]

/-- `data` after `data.update(self.extra)` (the source guards the update
with `if self.extra:`, which is the identity when `extra` is empty). -/
def mergedBase (b : StockBaseIndicators) : List (String × PyVal) :=
  dictUpdate (baseData b) b.extra

/-- The `ordered` pair list of `StockBaseIndicators.as_dict`: keys of
`ordered_keys` that are present (in that order), then the remaining entries
in insertion order. -/
def orderedBasePairs (b : StockBaseIndicators) : List (String × PyVal) :=
  (orderedKeys.filterMap
    (fun k => (dictGet (mergedBase b) k).map (fun v => (k, v)))) ++
  (mergedBase b).filter (fun p => !(orderedKeys.contains p.1))

/-- `StockBaseIndicators.as_dict`: drop `None` values, format the rest.
The keys of `ordered` are distinct (see `mergedBase_keys_nodup`), so the
final dict comprehension is this item list. -/
def baseAsDict (tsR : Rat → Option String) (b : StockBaseIndicators) :
    List (String × PyVal) :=
  (orderedBasePairs b).filterMap
    (fun p => if p.2.isNone then none
      else some (p.1, formatBaseValue tsR p.1 p.2))

/-- `StockAnalysisIndicators`. -/
structure StockAnalysisIndicators where
  symbol : String
  moving_averages : List (String × Rat) := []
  rsi : Option Rat := none
  macd : Option Rat := none
  beta : Option Rat := none
  recommendation : Option String := none
  extra : List (String × PyVal) := []

/-- An optional string field as Python stores it in the `data` dict. -/
def optStr : Option String → PyVal
  | none => PyVal.vnone
  | some s => PyVal.vstr s

/-- The `data` dict literal of `StockAnalysisIndicators.as_dict`
(`self.moving_averages or None` turns an empty dict into `None`). -/
def analysisData (a : StockAnalysisIndicators) : List (String × PyVal) :=
  [("symbol", PyVal.vstr a.symbol),
   ("moving_averages",
     if a.moving_averages.isEmpty then PyVal.vnone
     else PyVal.vdict (a.moving_averages.map (fun p => (p.1, PyVal.vfloat p.2)))),
   ("rsi", optFloat a.rsi),
   ("macd", optFloat a.macd),
   ("beta", optFloat a.beta),
   ("recommendation", optStr a.recommendation)]

/-- `StockAnalysisIndicators.as_dict`: update with `extra`, drop `None`
values, format the rest. -/
def analysisAsDict (a : StockAnalysisIndicators) : List (String × PyVal) :=
  (dictUpdate (analysisData a) a.extra).filterMap
    (fun p => if p.2.isNone then none
      else some (p.1, formatAnalysisValue p.1 p.2))

/-- `StockIndicatorSnapshot` (`src/market_agent/api/indicators.py`). -/
structure StockIndicatorSnapshot where
  symbol : String
  base : StockBaseIndicators
  analysis : Option StockAnalysisIndicators

/-- `StockIndicatorSnapshot.as_dict`: the `analysis` key is only assigned
when `self.analysis is not None`. -/
def snapshotAsDict (tsR : Rat → Option String) (s : StockIndicatorSnapshot) :
    List (String × PyVal) :=
  [("symbol", PyVal.vstr s.symbol),
   ("base", PyVal.vdict (baseAsDict tsR s.base))] ++
  (match s.analysis with
   | none => []
   | some a => [("analysis", PyVal.vdict (analysisAsDict a))])

/-! ### Derivation engine
(`src/market_agent/datasources/finnhub/finnhub_indicator_fetcher.py`) -/

/-- `_metric_float`: try an ordered list of alias keys and return the first
present numeric value. -/
def metricFloat (metrics : List (String × PyVal)) : List String → Option Rat
  | [] => none
  | k :: ks =>
    if containsKey metrics k then
      match toFloatQ (pyGet metrics k) with
      | some v => some v
      | none => metricFloat metrics ks
    else metricFloat metrics ks

/-- `_metric_value`: the parsed float when the value is numeric, else the
raw value. -/
def metricValue (v : PyVal) : PyVal :=
  match toFloatQ v with
  | some q => PyVal.vfloat q
  | none => v

/-- The fixed `keys` tuple of `_extract_metric_extras`. -/
def extractKeys : List String :=
  ["10DayAverageTradingVolume", "13WeekPriceReturnDaily",
   "26WeekPriceReturnDaily", "3MonthADReturnStd", "3MonthAverageTradingVolume",
   "52WeekHigh", "52WeekHighDate", "52WeekLow", "52WeekLowDate",
   "52WeekPriceReturnDaily", "5DayPriceReturnDaily", "beta",
   "bookValuePerShareAnnual", "bookValuePerShareQuarterly",
   "bookValueShareGrowth5Y", "capexCagr5Y", "cashFlowPerShareAnnual",
   "cashFlowPerShareQuarterly", "cashFlowPerShareTTM",
   "currentEv/freeCashFlowAnnual", "currentEv/freeCashFlowTTM",
   "currentRatioAnnual", "currentRatioQuarterly", "epsAnnual", "epsGrowth3Y",
   "epsGrowth5Y", "epsGrowthQuarterlyYoy", "epsGrowthTTMYoy",
   "epsInclExtraItemsAnnual", "epsInclExtraItemsTTM", "epsNormalizedAnnual",
   "epsTTM", "evRevenueTTM", "focfCagr5Y", "forwardPE", "grossMargin5Y",
   "grossMarginAnnual", "grossMarginTTM", "longTermDebt/equityAnnual",
   "longTermDebt/equityQuarterly", "marketCapitalization",
   "monthToDatePriceReturnDaily", "netIncomeEmployeeAnnual",
   "netIncomeEmployeeTTM", "netInterestCoverageAnnual", "netMarginGrowth5Y",
   "netProfitMargin5Y", "netProfitMarginAnnual", "netProfitMarginTTM",
   "operatingMargin5Y", "operatingMarginAnnual", "operatingMarginTTM",
   "payoutRatioAnnual", "peAnnual", "priceRelativeToS&P50013Week",
   "priceRelativeToS&P50026Week", "priceRelativeToS&P5004Week",
   "priceRelativeToS&P50052Week", "priceRelativeToS&P500Ytd",
   "revenueGrowth3Y", "revenueGrowth5Y", "revenueGrowthQuarterlyYoy",
   "revenueGrowthTTMYoy", "revenuePerShareAnnual", "revenuePerShareTTM",
   "revenueShareGrowth5Y", "tangibleBookValuePerShareAnnual",
   "tangibleBookValuePerShareQuarterly", "tbvCagr5Y",
   "totalDebt/totalEquityAnnual", "totalDebt/totalEquityQuarterly",
   "yearToDatePriceReturnDaily"]

/-- The `key_aliases` renaming of `_extract_metric_extras`. -/
def aliasKey (k : String) : String :=
  if k = "3MonthADReturnStd" then "3MonthAvgDailyReturnStdDev" else k

/-- One iteration of the `_extract_metric_extras` loop (`value` and
`parsed` are the loop locals `metrics.get(key)` and `_metric_value(value)`;
both are pure, so they are written inline). -/
def extractStep (metrics acc : List (String × PyVal)) (k : String) :
    List (String × PyVal) :=
  if k = "marketCapitalization" then acc
  else if (pyGet metrics k).isNone then acc
  else if (metricValue (pyGet metrics k)).isNone then acc
  else updateOne acc (aliasKey k) (metricValue (pyGet metrics k))

/-- `_extract_metric_extras`: copy the recognized metric keys (renamed
through `aliasKey`, skipping the filtered `marketCapitalization`). -/
def extractMetricExtras (metrics : List (String × PyVal)) :
    List (String × PyVal) :=
  extractKeys.foldl (extractStep metrics) []

/-- A recommendation-trend row. -/
def RecRow : Type := List (String × PyVal)

/-- `str(row.get("period", ""))`. -/
def rowPeriod (fps : PyVal → String) (row : RecRow) : String :=
  pyStr fps ((dictGet row "period").getD (PyVal.vstr ""))

/-- `_latest_row`: scan the rows keeping the one whose period compares
greatest (`period >= latest_period`, so later rows win ties). -/
def latestRow (fps : PyVal → String) (rows : List RecRow) : Option RecRow :=
  (rows.foldl
    (fun acc row =>
      let period := rowPeriod fps row
      if strLeB acc.2 period then (some row, period) else acc)
    ((none : Option RecRow), "")).1

/-- The `buckets` tuple of `_summarise_recommendation`. -/
def bucketPairs : List (String × String) :=
  [("strongBuy", "Strong Buy"), ("buy", "Buy"), ("hold", "Hold"),
   ("sell", "Sell"), ("strongSell", "Strong Sell")]

/-- The `scored` dict of `_summarise_recommendation`: label-to-count for the
buckets present with numeric values, in bucket order. -/
def scoredBuckets (row : RecRow) : List (String × Rat) :=
  bucketPairs.foldl
    (fun acc kl =>
      let value := pyGet row kl.1
      if value.isNone then acc
      else
        match toFloatQ value with
        | some numeric => updateOne acc kl.2 numeric
        | none => acc)
    []

/-- `_summarise_recommendation`: the label of the best-scored bucket of the
latest row (Python's `max` keeps the first maximal item). -/
def summariseRecommendation (fps : PyVal → String) (rows : List RecRow) :
    Option String :=
  match latestRow fps rows with
  | none => none
  | some latest =>
    if latest.isEmpty then none
    else
      match scoredBuckets latest with
      | [] => none
      | s :: ss =>
        some ((ss.foldl (fun best p => if best.2 < p.2 then p else best) s).1)

/-- The `recommendation_counts` dict comprehension of
`build_base_indicators`. -/
def recommendationCounts (row : RecRow) : List (String × PyVal) :=
  ["strongBuy", "buy", "hold", "sell", "strongSell"].filterMap
    (fun k => if (pyGet row k).isNone then none else some (k, pyGet row k))

/-- The `extra` dict of `build_base_indicators` after the `previous_close`
assignment (starting from the empty dict). -/
def extraAfterPrevClose (quote : List (String × PyVal)) :
    List (String × PyVal) :=
  match toFloatQ (pyGet quote "pc") with
  | some q => updateOne [] "previous_close" (PyVal.vfloat q)
  | none => []

/-- The `extra` dict after the `quote_timestamp` assignment (`timestamp` is
the pure local `quote.get("t")`, written inline). -/
def extraQuoteStage (quote : List (String × PyVal)) : List (String × PyVal) :=
  if (pyGet quote "t").isNone then extraAfterPrevClose quote
  else updateOne (extraAfterPrevClose quote) "quote_timestamp" (pyGet quote "t")

/-- The `extra` dict after the `if metrics:` update with the metric extras. -/
def extraMetricsStage (quote metrics : List (String × PyVal)) :
    List (String × PyVal) :=
  if metrics.isEmpty then extraQuoteStage quote
  else dictUpdate (extraQuoteStage quote) (extractMetricExtras metrics)

/-- The `extra` dict after the `rsi` assignment of the
`if include_analysis:` block. -/
def extraWithRsi (quote metrics : List (String × PyVal)) :
    List (String × PyVal) :=
  match toFloatQ (pyOr (pyGet metrics "14DayRSI") (pyGet metrics "RSI")) with
  | some q => updateOne (extraMetricsStage quote metrics) "rsi" (PyVal.vfloat q)
  | none => extraMetricsStage quote metrics

/-- The `extra` dict after the `macd` assignment. -/
def extraWithMacd (quote metrics : List (String × PyVal)) :
    List (String × PyVal) :=
  match toFloatQ (pyGet metrics "MACD") with
  | some q => updateOne (extraWithRsi quote metrics) "macd" (PyVal.vfloat q)
  | none => extraWithRsi quote metrics

/-- The `extra` dict after the whole `if include_analysis:` block
(`recommendation` and `recommendation_counts` assignments; the dict after
the `recommendation` assignment is written inline in each branch). -/
def extraAnalysisStage (fps : PyVal → String)
    (quote metrics : List (String × PyVal)) (recommendations : List RecRow) :
    List (String × PyVal) :=
  match summariseRecommendation fps recommendations with
  | some summary =>
    if summary ≠ "" then
      match latestRow fps recommendations with
      | some latest =>
        if !latest.isEmpty then
          updateOne
            (updateOne (extraWithMacd quote metrics) "recommendation"
              (PyVal.vstr summary))
            "recommendation_counts" (PyVal.vdict (recommendationCounts latest))
        else
          updateOne (extraWithMacd quote metrics) "recommendation"
            (PyVal.vstr summary)
      | none =>
        updateOne (extraWithMacd quote metrics) "recommendation"
          (PyVal.vstr summary)
    else extraWithMacd quote metrics
  | none => extraWithMacd quote metrics

/-- The fully built `extra` dict of `build_base_indicators`. -/
def buildExtra (fps : PyVal → String)
    (quote metrics : List (String × PyVal)) (recommendations : List RecRow)
    (includeAnalysis : Bool) : List (String × PyVal) :=
  if includeAnalysis then extraAnalysisStage fps quote metrics recommendations
  else extraMetricsStage quote metrics

/-- `build_base_indicators`, with the client calls replaced by the fetched
maps themselves: `quote`, `profile` and `metrics` are the provider dicts and
`recommendationRows` the recommendation trends (fetched only when
`includeAnalysis` is set, as in the source). -/
def buildBaseIndicators (fps : PyVal → String) (symbol : String)
    (quote profile metrics : List (String × PyVal))
    (recommendationRows : List RecRow) (includeAnalysis : Bool) :
    StockBaseIndicators :=
  let recommendations := if includeAnalysis then recommendationRows else []
  let market_cap := toFloatQ (pyGet profile "marketCapitalization")
  let beta := metricFloat metrics ["beta"]
  let short_interest_pct_float :=
    metricFloat metrics
      ["shortPercent", "shortPercentFloat", "shortInterestPercentOfFloat"]
  let cash_and_equivalents :=
    metricFloat metrics
      ["cashAndCashEquivalents", "cashAndCashEquivalentsTTM",
       "cashAndCashEquivalentsAnnual", "totalCash"]
  let total_debt :=
    metricFloat metrics ["totalDebt", "totalDebtTTM", "totalDebtAnnual"]
  let capex :=
    metricFloat metrics
      ["capitalExpenditure", "capitalExpenditureTTM",
       "capitalExpenditureAnnual", "capexTTM"]
  let operating_cash_flow :=
    metricFloat metrics
      ["operatingCashFlow", "operatingCashFlowTTM", "operatingCashFlowAnnual"]
  let revenue :=
    metricFloat metrics ["revenueTTM", "totalRevenue", "totalRevenueTTM"]
  let net_income :=
    metricFloat metrics
      ["netIncome", "netIncomeTTM", "netIncomeCommonStockholders",
       "netIncomeCommon"]
  let enterprise_value :=
    match market_cap, total_debt, cash_and_equivalents with
    | some mc, some td, some ce => some (ratSub (ratAdd mc td) ce)
    | _, _, _ => none
  let free_cash_flow :=
    match operating_cash_flow, capex with
    | some ocf, some cx => some (ratSub ocf cx)
    | _, _ => none
  let fcf_margin :=
    match free_cash_flow, revenue with
    | some f, some r => if r ≠ 0 then some (ratDiv f r) else none
    | _, _ => none
  let cash_conversion :=
    match free_cash_flow, net_income with
    | some f, some n => if n ≠ 0 then some (ratDiv f n) else none
    | _, _ => none
  { symbol := symbol
    open_price := toFloatQ (pyGet quote "o")
    high_price := toFloatQ (pyGet quote "h")
    low_price := toFloatQ (pyGet quote "l")
    close_price := toFloatQ (pyGet quote "c")
    volume := toIntZ (pyGet quote "v")
    market_cap := market_cap
    enterprise_value := enterprise_value
    beta := beta
    short_interest_pct_float := short_interest_pct_float
    cash_and_equivalents := cash_and_equivalents
    total_debt := total_debt
    capex := capex
    operating_cash_flow := operating_cash_flow
    free_cash_flow := free_cash_flow
    fcf_margin := fcf_margin
    cash_conversion := cash_conversion
    extra := buildExtra fps quote metrics recommendations includeAnalysis }

example :
    (buildBaseIndicators (fun _ => "") "TEST" [] []
      [("operatingCashFlow", PyVal.vfloat (mkRat 500 1)),
       ("capitalExpenditure", PyVal.vfloat (mkRat 120 1)),
       ("revenueTTM", PyVal.vfloat (mkRat 2000 1))]
      [] true).free_cash_flow = some (mkRat 380 1) := rfl

example :
    (buildBaseIndicators (fun _ => "") "TEST" [] []
      [("operatingCashFlow", PyVal.vfloat (mkRat 500 1)),
       ("capitalExpenditure", PyVal.vfloat (mkRat 120 1)),
       ("revenueTTM", PyVal.vfloat (mkRat 2000 1))]
      [] true).fcf_margin = some (mkRat 19 100) := rfl

/-! ### Indicator classifiers

Three near-identical copies of `_classify_indicator` exist in the sources:
`src/frontend/web/server.py`, `src/frontend/cli/main.py` and
`src/market_agent/analysis/stock/single_stock.py`.  Each is embedded
separately, in its own namespace. -/

namespace WebServer

/-- `_classify_indicator` of `src/frontend/web/server.py`. -/
def classifyIndicator (key : String) : String :=
  if key = "quote_timestamp" then "Quote"
  else if key = "previous_close" then "Price & Returns"
  else if ["volume", "liquidity"].any (fun t => strContains (lowerStr key) t) then
    "Volume & Liquidity"
  else if key ∈ ["beta", "moving_averages", "rsi", "macd"] then
    "Price & Returns"
  else if ["price", "return", "weekhigh", "weeklow"].any
      (fun t => strContains (lowerStr key) t) then
    "Price & Returns"
  else if ["marketcap", "enterprisevalue", "ev", "pe"].any
      (fun t => strContains (lowerStr key) t) then
    "Valuation"
  else if strStartsWith (lowerStr key) "eps" then "Valuation"
  else if ["margin", "profit", "operatingmargin"].any
      (fun t => strContains (lowerStr key) t) then
    if strContains (lowerStr key) "growth" then "Growth"
    else "Profitability & Margins"
  else if ["growth", "cagr", "yoy"].any (fun t => strContains (lowerStr key) t) then
    "Growth"
  else if ["cashflow", "free_cash_flow", "capex"].any
      (fun t => strContains (lowerStr key) t) then
    "Cash Flow"
  else if ["cash", "debt", "equity", "bookvalue"].any
      (fun t => strContains (lowerStr key) t) then
    "Balance Sheet"
  else if strContains (lowerStr key) "pershare" then "Per-Share"
  else if ["ratio", "coverage"].any (fun t => strContains (lowerStr key) t) then
    "Leverage & Coverage"
  else if ["recommendation"].any (fun t => strContains (lowerStr key) t) then
    "Price & Returns"
  else "Price & Returns"

end WebServer

namespace CliMain

/-- `_classify_indicator` of `src/frontend/cli/main.py`. -/
def classifyIndicator (key : String) : String :=
  if key = "quote_timestamp" then "Quote"
  else if key = "previous_close" then "Price & Returns"
  else if ["volume", "liquidity"].any (fun t => strContains (lowerStr key) t) then
    "Volume & Liquidity"
  else if key ∈ ["beta", "moving_averages", "rsi", "macd"] then
    "Price & Returns"
  else if ["price", "return", "weekhigh", "weeklow"].any
      (fun t => strContains (lowerStr key) t) then
    "Price & Returns"
  else if ["marketcap", "enterprisevalue", "ev", "pe"].any
      (fun t => strContains (lowerStr key) t) then
    "Valuation"
  else if strStartsWith (lowerStr key) "eps" then "Valuation"
  else if ["margin", "profit", "operatingmargin"].any
      (fun t => strContains (lowerStr key) t) then
    if strContains (lowerStr key) "growth" then "Growth"
    else "Profitability & Margins"
  else if ["growth", "cagr", "yoy"].any (fun t => strContains (lowerStr key) t) then
    "Growth"
  else if ["cashflow", "free_cash_flow", "capex"].any
      (fun t => strContains (lowerStr key) t) then
    "Cash Flow"
  else if ["cash", "debt", "equity", "bookvalue"].any
      (fun t => strContains (lowerStr key) t) then
    "Balance Sheet"
  else if strContains (lowerStr key) "pershare" then "Per-Share"
  else if ["ratio", "coverage"].any (fun t => strContains (lowerStr key) t) then
    "Leverage & Coverage"
  else if ["recommendation"].any (fun t => strContains (lowerStr key) t) then
    "3rd Party Recommendation"
  else "Price & Returns"

end CliMain

namespace SingleStock

/-- `_classify_indicator` of
`src/market_agent/analysis/stock/single_stock.py` (this copy checks the
exact-key set before the volume rule and has no recommendation rule). -/
def classifyIndicator (key : String) : String :=
  if key = "quote_timestamp" then "Quote"
  else if key = "previous_close" then "Price & Returns"
  else if key ∈ ["beta", "moving_averages", "rsi", "macd"] then
    "Price & Returns"
  else if ["volume", "liquidity"].any (fun t => strContains (lowerStr key) t) then
    "Volume & Liquidity"
  else if ["price", "return", "weekhigh", "weeklow"].any
      (fun t => strContains (lowerStr key) t) then
    "Price & Returns"
  else if ["marketcap", "enterprisevalue", "ev", "pe"].any
      (fun t => strContains (lowerStr key) t) then
    "Valuation"
  else if strStartsWith (lowerStr key) "eps" then "Valuation"
  else if ["margin", "profit", "operatingmargin"].any
      (fun t => strContains (lowerStr key) t) then
    if strContains (lowerStr key) "growth" then "Growth"
    else "Profitability & Margins"
  else if ["growth", "cagr", "yoy"].any (fun t => strContains (lowerStr key) t) then
    "Growth"
  else if ["cashflow", "free_cash_flow", "capex"].any
      (fun t => strContains (lowerStr key) t) then
    "Cash Flow"
  else if ["cash", "debt", "equity", "bookvalue"].any
      (fun t => strContains (lowerStr key) t) then
    "Balance Sheet"
  else if strContains (lowerStr key) "pershare" then "Per-Share"
  else if ["ratio", "coverage"].any (fun t => strContains (lowerStr key) t) then
    "Leverage & Coverage"
  else "Price & Returns"

end SingleStock

/-- The fixed ordered section catalog (`ordered_sections` in the consumers). -/
def sectionCatalog : List String :=
  ["Quote", "Price & Returns", "Volume & Liquidity", "Valuation",
   "Profitability & Margins", "Growth", "Cash Flow", "Balance Sheet",
   "Per-Share", "Leverage & Coverage", "3rd Party Recommendation"]

example : WebServer.classifyIndicator "recommendation" = "Price & Returns" := by decide
example : CliMain.classifyIndicator "recommendation" = "3rd Party Recommendation" := by decide
example : SingleStock.classifyIndicator "recommendation" = "Price & Returns" := by decide
example : WebServer.classifyIndicator "52WeekHigh" = "Price & Returns" := by decide

/-! ### Web label generator (`src/frontend/web/server.py`) -/

namespace WebServer

/-- The `overrides` table of `_label_for_key`. -/
def labelOverrides : List (String × String) :=
  [("3MonthAvgDailyReturnStdDev", "3MoAvgDailyReturnVolStdDev"),
   ("recommendation", "FinnhubRecommendation"),
   ("recommendation_counts", "FinnhubRecommendationCounts"),
   ("focfCagr5Y", "FreeOperatingCashFlowCagr5Y"),
   ("tbvCagr5Y", "TangibleBookValueCagr5Y")]

/-- `overrides.get(key, default)`. -/
def overrideOrDefault (key : String) (dflt : String) : String :=
  ((labelOverrides.find? (fun p => p.1 = key)).map (fun p => p.2)).getD dflt

/-- `overrides["3MonthAvgDailyReturnStdDev"]` (direct indexing in the
source; the key is present in the table). -/
def budgetSourceValue : String := overrideOrDefault "3MonthAvgDailyReturnStdDev" ""

end WebServer

/-- One step of Python `str.replace` on character lists, written with a
fuel argument so that it is structurally recursive (each step consumes at
least one character, so a fuel equal to the list length is enough): replace
every non-overlapping occurrence of `pat`, scanning left to right.  An
empty pattern returns the list unchanged (all patterns in the sources are
nonempty literals). -/
def replaceAllCharsAux (pat rep : List Char) : Nat → List Char → List Char
  | _, [] => []
  | 0, l => l
  | Nat.succ fuel, c :: rest =>
    if pat ≠ [] ∧ List.isPrefixOf pat (c :: rest) then
      rep ++ replaceAllCharsAux pat rep fuel ((c :: rest).drop pat.length)
    else c :: replaceAllCharsAux pat rep fuel rest

/-- Replace every non-overlapping occurrence of `pat` by `rep`. -/
def replaceAllChars (pat rep l : List Char) : List Char :=
  replaceAllCharsAux pat rep l.length l

/-- Python `s.replace(old, new)`. -/
def pyReplace (s old new : String) : String :=
  ⟨replaceAllChars old.data new.data s.data⟩

/-- Python `s[:n]` for nonnegative `n`. -/
def pySlice (s : String) (n : Nat) : String := ⟨s.data.take n⟩

namespace WebServer

/-- The ordered `replacements` list of `_shorten_label`. -/
def labelReplacements : List (String × String) :=
  [("Average", "Avg"), ("Quarterly", "Qtr"), ("Annual", "Ann"),
   ("Revenue", "Rev"), ("Profit", "Prof"), ("Operating", "Op"),
   ("Interest", "Int"), ("Coverage", "Cov"), ("Current", "Curr"),
   ("Relative", "Rel"), ("Volatility", "Vol"), ("Return", "Ret"),
   ("CashFlow", "CF"), ("PerShare", "PerShr"), ("Employee", "Emp"),
   ("Share", "Shr"), ("LongTerm", "LT"), ("Total", "Tot"),
   ("Equity", "Eq"), ("Debt", "Debt"), ("Tangible", "Tang"),
   ("BookValue", "BV")]

/-- The abbreviation loop of `_shorten_label`: apply the replacements in
order, stopping as soon as the label fits. -/
def applyReplacements (maxLen : Nat) : List (String × String) → String → String
  | [], s => s
  | (old, new) :: rest, s =>
    if s.length ≤ maxLen then s
    else applyReplacements maxLen rest (pyReplace s old new)

/-- `_shorten_label`: abbreviate, then hard-truncate with an ellipsis if the
label still exceeds the budget. -/
def shortenLabel (label : String) (maxLen : Nat) : String :=
  let shortened := applyReplacements maxLen labelReplacements label
  if shortened.length > maxLen then pySlice shortened (maxLen - 1) ++ "…"
  else shortened

/-- `_to_title_camel`, step 1: the character class substitution mapping
non-alphanumeric runs to spaces (run collapsing is irrelevant after the
whitespace split). -/
def cleanNonAlnum (l : List Char) : List Char :=
  l.map (fun c => if c.isAlphanum then c else ' ')

/-- `_to_title_camel`, step 2: insert a space at each lower-or-digit to
upper boundary. -/
def camelBoundarySpace : List Char → List Char
  | [] => []
  | [c] => [c]
  | a :: b :: rest =>
    if (a.isLower || a.isDigit) && b.isUpper then
      a :: ' ' :: camelBoundarySpace (b :: rest)
    else a :: camelBoundarySpace (b :: rest)

/-- `_to_title_camel`, steps 3 and 4: split on whitespace dropping empty
parts, uppercase the first character of each part, concatenate. -/
def titleCamelParts (l : List Char) : List Char :=
  ((l.splitOn ' ').filter (fun part => part ≠ [])).map
    (fun part =>
      match part with
      | [] => []
      | c :: cs => c.toUpper :: cs)
  |>.flatten

/-- `_to_title_camel`. -/
def toTitleCamel (s : String) : String :=
  ⟨titleCamelParts (camelBoundarySpace (cleanNonAlnum s.data))⟩

/-- `_label_for_key` of the web server: override or title-camel label,
shortened to the budget taken from the
`3MonthAvgDailyReturnStdDev` override value. -/
def labelForKey (key : String) : String :=
  let label := overrideOrDefault key (toTitleCamel key)
  let maxLen := budgetSourceValue.length
  if label.length > maxLen then shortenLabel label maxLen
  else label

end WebServer

example : WebServer.toTitleCamel "52WeekHigh" = "52WeekHigh" := by decide
example : WebServer.toTitleCamel "free_cash_flow" = "FreeCashFlow" := by decide
example : WebServer.budgetSourceValue.length = 26 := by decide
example : WebServer.labelForKey "recommendation_counts" = "FinnhubRecommendationCoun…" := by decide
example : WebServer.labelForKey "free_cash_flow" = "FreeCashFlow" := by decide

/-! ### Properties of the lexicographic string order -/

theorem lexLe_refl (l : List Char) : lexLeChars l l = true := by
  induction l with
  | nil => rfl
  | cons a as ih => simp [lexLeChars, ih]

theorem strLeB_refl (s : String) : strLeB s s = true := lexLe_refl s.data

theorem lexLe_total (a b : List Char) :
    lexLeChars a b = true ∨ lexLeChars b a = true := by
  induction a generalizing b with
  | nil => exact Or.inl rfl
  | cons x xs ih =>
    cases b with
    | nil => exact Or.inr rfl
    | cons y ys =>
      by_cases hxy : x = y
      · subst hxy
        simpa [lexLeChars] using ih ys
      · rcases lt_trichotomy x y with h | h | h
        · left
          simp [lexLeChars, hxy, h]
        · exact absurd h hxy
        · right
          have hyx : y ≠ x := fun hh => hxy hh.symm
          simp [lexLeChars, hyx, h]

theorem lexLe_trans (a b c : List Char) (hab : lexLeChars a b = true)
    (hbc : lexLeChars b c = true) : lexLeChars a c = true := by
  induction a generalizing b c with
  | nil => rfl
  | cons x xs ih =>
    cases b with
    | nil => simp [lexLeChars] at hab
    | cons y ys =>
      cases c with
      | nil => simp [lexLeChars] at hbc
      | cons z zs =>
        by_cases hxy : x = y
        · subst hxy
          by_cases hyz : x = z
          · subst hyz
            simp only [lexLeChars, if_pos rfl] at hab hbc ⊢
            exact ih ys zs hab hbc
          · simp only [lexLeChars, if_pos rfl] at hab
            simpa [lexLeChars, hyz] using hbc
        · by_cases hyz : y = z
          · subst hyz
            simpa [lexLeChars, hxy] using hab
          · simp [lexLeChars, hxy] at hab
            simp [lexLeChars, hyz] at hbc
            have hxz : x < z := lt_trans hab hbc
            have : x ≠ z := ne_of_lt hxz
            simp [lexLeChars, this, hxz]

theorem strLeB_total (a b : String) :
    strLeB a b = true ∨ strLeB b a = true := lexLe_total a.data b.data

theorem strLeB_trans (a b c : String) (hab : strLeB a b = true)
    (hbc : strLeB b c = true) : strLeB a c = true :=
  lexLe_trans a.data b.data c.data hab hbc

/-! ### The latest recommendation row, as the spec words it -/

/-- The lexicographic maximum of the rows' period strings (the empty string
for an empty row list, matching the accumulator seed of `_latest_row`). -/
def maxPeriod (fps : PyVal → String) (rows : List RecRow) : String :=
  rows.foldl
    (fun m r => if strLeB m (rowPeriod fps r) then rowPeriod fps r else m) ""

/-- Spec-side rendering of the latest-row selection: among the rows whose
period string equals the lexicographic maximum, the last one in input
order (`none` for no rows). -/
def specLatestRow (fps : PyVal → String) (rows : List RecRow) : Option RecRow :=
  (rows.filter (fun r => rowPeriod fps r = maxPeriod fps rows)).getLast?

theorem latestRow_foldl_eq (fps : PyVal → String) (rows : List RecRow) :
    rows.foldl
      (fun acc row =>
        if strLeB acc.2 (rowPeriod fps row) then (some row, rowPeriod fps row)
        else acc)
      ((none : Option RecRow), "")
      = (specLatestRow fps rows, maxPeriod fps rows) := by
  induction rows using List.reverseRecOn with
  | nil => rfl
  | append_singleton rows r ih =>
    rw [List.foldl_append, ih]
    by_cases hle : strLeB (maxPeriod fps rows) (rowPeriod fps r) = true
    · have hm : maxPeriod fps (rows ++ [r]) = rowPeriod fps r := by
        rw [maxPeriod, List.foldl_append]
        show (if strLeB (maxPeriod fps rows) (rowPeriod fps r) = true
          then rowPeriod fps r else maxPeriod fps rows) = rowPeriod fps r
        rw [if_pos hle]
      have hs : specLatestRow fps (rows ++ [r]) = some r := by
        rw [specLatestRow, hm, List.filter_append]
        simp
      rw [hs, hm]
      simp [hle]
    · have hm : maxPeriod fps (rows ++ [r]) = maxPeriod fps rows := by
        rw [maxPeriod, List.foldl_append]
        show (if strLeB (maxPeriod fps rows) (rowPeriod fps r) = true
          then rowPeriod fps r else maxPeriod fps rows) = maxPeriod fps rows
        rw [if_neg hle]
      have hne : rowPeriod fps r ≠ maxPeriod fps rows := by
        intro hh
        apply hle
        rw [← hh] at hle ⊢
        exact strLeB_refl (rowPeriod fps r)
      have hs : specLatestRow fps (rows ++ [r]) = specLatestRow fps rows := by
        rw [specLatestRow, hm, List.filter_append, specLatestRow]
        simp [hne]
      rw [hs, hm]
      simp [hle]

theorem latestRow_eq_spec (fps : PyVal → String) (rows : List RecRow) :
    latestRow fps rows = specLatestRow fps rows := by
  rw [latestRow]
  exact congrArg Prod.fst (latestRow_foldl_eq fps rows)

/-- The seed of the running string maximum never decreases along the fold. -/
theorem foldl_strMax_seed (fps : PyVal → String) (rows : List RecRow)
    (seed : String) :
    strLeB seed
      (rows.foldl
        (fun m r => if strLeB m (rowPeriod fps r) then rowPeriod fps r else m)
        seed) = true := by
  induction rows generalizing seed with
  | nil => exact strLeB_refl seed
  | cons x xs ih =>
    simp only [List.foldl_cons]
    by_cases h : strLeB seed (rowPeriod fps x) = true
    · rw [if_pos h]
      exact strLeB_trans _ _ _ h (ih (rowPeriod fps x))
    · rw [if_neg h]
      exact ih seed

/-- Every row's period is bounded by the running string maximum. -/
theorem foldl_strMax_bound (fps : PyVal → String) (rows : List RecRow)
    (seed : String) (r : RecRow) (hr : r ∈ rows) :
    strLeB (rowPeriod fps r)
      (rows.foldl
        (fun m x => if strLeB m (rowPeriod fps x) then rowPeriod fps x else m)
        seed) = true := by
  induction rows generalizing seed with
  | nil => cases hr
  | cons x xs ih =>
    simp only [List.foldl_cons]
    rcases List.mem_cons.mp hr with hx | hx
    · subst hx
      by_cases h : strLeB seed (rowPeriod fps r) = true
      · rw [if_pos h]
        exact foldl_strMax_seed fps xs (rowPeriod fps r)
      · rw [if_neg h]
        have hle : strLeB (rowPeriod fps r) seed = true := by
          rcases strLeB_total seed (rowPeriod fps r) with hh | hh
          · exact absurd hh h
          · exact hh
        exact strLeB_trans _ _ _ hle (foldl_strMax_seed fps xs seed)
    · exact ih _ hx

/-- `maxPeriod` bounds every period. -/
theorem maxPeriod_is_ub (fps : PyVal → String) (rows : List RecRow)
    (r : RecRow) (hr : r ∈ rows) :
    strLeB (rowPeriod fps r) (maxPeriod fps rows) = true :=
  foldl_strMax_bound fps rows "" r hr

/-! ### The recommendation summary, as the spec words it -/

/-- Python's `max(items, key=value)` keeps the first maximal item.  The
decomposition below locates the fold result inside the scanned list:
everything before it is strictly smaller, everything after it is no
larger. -/
theorem foldl_best_decomp (l : List (String × Rat)) (x : String × Rat) :
    ∃ l1 l2,
      x :: l = l1 ++ (l.foldl (fun best p => if best.2 < p.2 then p else best) x) :: l2
      ∧ (∀ p ∈ l1, p.2 < (l.foldl (fun best p => if best.2 < p.2 then p else best) x).2)
      ∧ (∀ p ∈ l2, p.2 ≤ (l.foldl (fun best p => if best.2 < p.2 then p else best) x).2) := by
  induction l generalizing x with
  | nil =>
    exact ⟨[], [], rfl, by simp, by simp⟩
  | cons p l ih =>
    simp only [List.foldl_cons]
    by_cases h : x.2 < p.2
    · rw [if_pos h]
      obtain ⟨l1, l2, heq, h1, h2⟩ := ih p
      have hple :
          p.2 ≤ (l.foldl (fun best p => if best.2 < p.2 then p else best) p).2 := by
        cases l1 with
        | nil =>
          rw [List.nil_append] at heq
          injection heq with hh _
          exact le_of_eq (congrArg Prod.snd hh)
        | cons a l1' =>
          rw [List.cons_append] at heq
          injection heq with hh _
          have ha := h1 a (List.mem_cons_self a l1')
          rw [← hh] at ha
          exact le_of_lt ha
      refine ⟨x :: l1, l2, ?_, ?_, h2⟩
      · rw [List.cons_append, ← heq]
      · intro q hq
        rcases List.mem_cons.mp hq with rfl | hql
        · exact lt_of_lt_of_le h hple
        · exact h1 q hql
    · rw [if_neg h]
      obtain ⟨l1, l2, heq, h1, h2⟩ := ih x
      cases l1 with
      | nil =>
        rw [List.nil_append] at heq
        injection heq with hh htl
        refine ⟨[], p :: l2, ?_, by simp, ?_⟩
        · rw [List.nil_append, ← hh, ← htl]
        · intro q hq
          rcases List.mem_cons.mp hq with rfl | hql
          · rw [← hh]
            exact le_of_not_lt h
          · exact h2 q hql
      | cons a l1' =>
        rw [List.cons_append] at heq
        injection heq with hh htl
        have hx2 := h1 a (List.mem_cons_self a l1')
        rw [← hh] at hx2
        refine ⟨x :: p :: l1', l2, ?_, ?_, h2⟩
        · rw [List.cons_append, List.cons_append, ← htl]
        · intro q hq
          rcases List.mem_cons.mp hq with rfl | hq'
          · exact hx2
          · rcases List.mem_cons.mp hq' with rfl | hql
            · exact lt_of_le_of_lt (le_of_not_lt h) hx2
            · exact h1 q (List.mem_cons_of_mem a hql)

/-- `find?` over a list whose prefix entirely fails the predicate. -/
theorem find?_skip {α : Type} (pred : α → Bool) (m : α) (l2 : List α)
    (hm : pred m = true) (l1 : List α) (h : ∀ p ∈ l1, pred p = false) :
    (l1 ++ m :: l2).find? pred = some m := by
  induction l1 with
  | nil =>
    simp only [List.nil_append]
    rw [List.find?_cons_of_pos _ hm]
  | cons a l1 ih =>
    rw [List.cons_append, List.find?_cons_of_neg]
    · exact ih (fun p hp => h p (List.mem_cons_of_mem a hp))
    · simp [h a (List.mem_cons_self a l1)]

/-- The fold of `_summarise_recommendation` picks the first maximal scored
bucket: as a `find?`, the first entry at least as large as every entry. -/
theorem find?_first_max (s : String × Rat) (ss : List (String × Rat)) :
    (s :: ss).find? (fun p => (s :: ss).all (fun q => decide (q.2 ≤ p.2)))
      = some (ss.foldl (fun best p => if best.2 < p.2 then p else best) s) := by
  obtain ⟨l1, l2, heq, h1, h2⟩ := foldl_best_decomp ss s
  rw [heq]
  apply find?_skip
  · rw [List.all_eq_true]
    intro q hq
    rcases List.mem_append.mp hq with hq1 | hq2
    · exact decide_eq_true (le_of_lt (h1 q hq1))
    · rcases List.mem_cons.mp hq2 with rfl | hq3
      · exact decide_eq_true (le_refl _)
      · exact decide_eq_true (h2 q hq3)
  · intro p hp
    have hlt := h1 p hp
    rw [List.all_eq_false]
    refine ⟨_, List.mem_append_right l1 (List.mem_cons_self _ l2), ?_⟩
    simp [not_le.mpr hlt]

/-- Spec-side rendering of the bucket choice: the first bucket, in the fixed
Strong Buy, Buy, Hold, Sell, Strong Sell order, whose numeric count is at
least every other scored bucket's count. -/
def specBestBucket (row : RecRow) : Option String :=
  ((scoredBuckets row).find?
    (fun p => (scoredBuckets row).all (fun q => decide (q.2 ≤ p.2)))).map
    (fun p => p.1)

/-- Spec-side rendering of `_summarise_recommendation`: the best bucket of
the row whose period identifier is lexicographically largest. -/
def specSummarise (fps : PyVal → String) (rows : List RecRow) : Option String :=
  match specLatestRow fps rows with
  | none => none
  | some latest => specBestBucket latest

theorem summarise_eq_spec (fps : PyVal → String) (rows : List RecRow) :
    summariseRecommendation fps rows = specSummarise fps rows := by
  unfold summariseRecommendation specSummarise
  rw [latestRow_eq_spec]
  cases specLatestRow fps rows with
  | none => rfl
  | some latest =>
    show (if latest.isEmpty then none
      else match scoredBuckets latest with
        | [] => none
        | s :: ss =>
          some ((ss.foldl (fun best p => if best.2 < p.2 then p else best) s).1))
      = specBestBucket latest
    by_cases he : latest.isEmpty
    · rw [if_pos he]
      have hnil : latest = [] := List.isEmpty_iff.mp he
      subst hnil
      rfl
    · rw [if_neg he]
      cases hsc : scoredBuckets latest with
      | nil =>
        unfold specBestBucket
        rw [hsc]
        rfl
      | cons s ss =>
        unfold specBestBucket
        rw [hsc, find?_first_max]
        rfl

example :
    summariseRecommendation (fun _ => "")
      [[("period", PyVal.vstr "2024-03-31"), ("strongBuy", PyVal.vint 5),
        ("buy", PyVal.vint 10), ("hold", PyVal.vint 2), ("sell", PyVal.vint 0),
        ("strongSell", PyVal.vint 1)],
       [("period", PyVal.vstr "2024-06-30"), ("strongBuy", PyVal.vint 20),
        ("buy", PyVal.vint 3), ("hold", PyVal.vint 1), ("sell", PyVal.vint 0),
        ("strongSell", PyVal.vint 0)]] = some "Strong Buy" := rfl

/-! ### Relating the three classifier copies -/

theorem classify_web_eq_single (key : String) :
    WebServer.classifyIndicator key = SingleStock.classifyIndicator key := by
  by_cases hs : key ∈ (["beta", "moving_averages", "rsi", "macd"] : List String)
  · simp only [List.mem_cons, List.mem_singleton, List.not_mem_nil, or_false] at hs
    rcases hs with rfl | rfl | rfl | rfl <;> decide
  · unfold WebServer.classifyIndicator SingleStock.classifyIndicator
    simp [hs]

theorem classify_cli_cases (key : String) :
    CliMain.classifyIndicator key = WebServer.classifyIndicator key
    ∨ (strContains (lowerStr key) "recommendation" = true
       ∧ CliMain.classifyIndicator key = "3rd Party Recommendation"
       ∧ WebServer.classifyIndicator key = "Price & Returns") := by
  unfold CliMain.classifyIndicator WebServer.classifyIndicator
  by_cases h1 : key = "quote_timestamp"
  · left
    simp [h1]
  by_cases h2 : key = "previous_close"
  · left
    simp [h1, h2]
  by_cases h3 : (["volume", "liquidity"].any
      (fun t => strContains (lowerStr key) t)) = true
  · left
    simp [h1, h2, h3]
  by_cases h4 : key ∈ (["beta", "moving_averages", "rsi", "macd"] : List String)
  · left
    simp [h1, h2, h3, h4]
  by_cases h5 : (["price", "return", "weekhigh", "weeklow"].any
      (fun t => strContains (lowerStr key) t)) = true
  · left
    simp [h1, h2, h3, h4, h5]
  by_cases h6 : (["marketcap", "enterprisevalue", "ev", "pe"].any
      (fun t => strContains (lowerStr key) t)) = true
  · left
    simp [h1, h2, h3, h4, h5, h6]
  by_cases h7 : strStartsWith (lowerStr key) "eps" = true
  · left
    simp [h1, h2, h3, h4, h5, h6, h7]
  by_cases h8 : (["margin", "profit", "operatingmargin"].any
      (fun t => strContains (lowerStr key) t)) = true
  · left
    simp [h1, h2, h3, h4, h5, h6, h7, h8]
  by_cases h9 : (["growth", "cagr", "yoy"].any
      (fun t => strContains (lowerStr key) t)) = true
  · left
    simp [h1, h2, h3, h4, h5, h6, h7, h8, h9]
  by_cases h10 : (["cashflow", "free_cash_flow", "capex"].any
      (fun t => strContains (lowerStr key) t)) = true
  · left
    simp [h1, h2, h3, h4, h5, h6, h7, h8, h9, h10]
  by_cases h11 : (["cash", "debt", "equity", "bookvalue"].any
      (fun t => strContains (lowerStr key) t)) = true
  · left
    simp [h1, h2, h3, h4, h5, h6, h7, h8, h9, h10, h11]
  by_cases h12 : strContains (lowerStr key) "pershare" = true
  · left
    simp [h1, h2, h3, h4, h5, h6, h7, h8, h9, h10, h11, h12]
  by_cases h13 : (["ratio", "coverage"].any
      (fun t => strContains (lowerStr key) t)) = true
  · left
    simp [h1, h2, h3, h4, h5, h6, h7, h8, h9, h10, h11, h12, h13]
  by_cases h14 : (["recommendation"].any
      (fun t => strContains (lowerStr key) t)) = true
  · right
    refine ⟨by simpa using h14, ?_, ?_⟩ <;>
      simp [h1, h2, h3, h4, h5, h6, h7, h8, h9, h10, h11, h12, h13, h14]
  · left
    simp [h1, h2, h3, h4, h5, h6, h7, h8, h9, h10, h11, h12, h13, h14]

theorem classify_web_mem (key : String) :
    WebServer.classifyIndicator key ∈ sectionCatalog := by
  by_cases h1 : key = "quote_timestamp"
  · simp [WebServer.classifyIndicator, sectionCatalog, h1]
  by_cases h2 : key = "previous_close"
  · simp [WebServer.classifyIndicator, sectionCatalog, h1, h2]
  by_cases h3 : (["volume", "liquidity"].any
      (fun t => strContains (lowerStr key) t)) = true
  · simp [WebServer.classifyIndicator, sectionCatalog, h1, h2, h3]
  by_cases h4 : key ∈ (["beta", "moving_averages", "rsi", "macd"] : List String)
  · simp [WebServer.classifyIndicator, sectionCatalog, h1, h2, h3, h4]
  by_cases h5 : (["price", "return", "weekhigh", "weeklow"].any
      (fun t => strContains (lowerStr key) t)) = true
  · simp [WebServer.classifyIndicator, sectionCatalog, h1, h2, h3, h4, h5]
  by_cases h6 : (["marketcap", "enterprisevalue", "ev", "pe"].any
      (fun t => strContains (lowerStr key) t)) = true
  · simp [WebServer.classifyIndicator, sectionCatalog, h1, h2, h3, h4, h5, h6]
  by_cases h7 : strStartsWith (lowerStr key) "eps" = true
  · simp [WebServer.classifyIndicator, sectionCatalog, h1, h2, h3, h4, h5, h6, h7]
  by_cases h8 : (["margin", "profit", "operatingmargin"].any
      (fun t => strContains (lowerStr key) t)) = true
  · by_cases hg : strContains (lowerStr key) "growth" = true
    · simp [WebServer.classifyIndicator, sectionCatalog, h1, h2, h3, h4, h5, h6, h7, h8, hg]
    · simp [WebServer.classifyIndicator, sectionCatalog, h1, h2, h3, h4, h5, h6, h7, h8, hg]
  by_cases h9 : (["growth", "cagr", "yoy"].any
      (fun t => strContains (lowerStr key) t)) = true
  · simp [WebServer.classifyIndicator, sectionCatalog, h1, h2, h3, h4, h5, h6, h7, h8, h9]
  by_cases h10 : (["cashflow", "free_cash_flow", "capex"].any
      (fun t => strContains (lowerStr key) t)) = true
  · simp [WebServer.classifyIndicator, sectionCatalog, h1, h2, h3, h4, h5, h6, h7, h8, h9, h10]
  by_cases h11 : (["cash", "debt", "equity", "bookvalue"].any
      (fun t => strContains (lowerStr key) t)) = true
  · simp [WebServer.classifyIndicator, sectionCatalog, h1, h2, h3, h4, h5, h6, h7, h8, h9, h10, h11]
  by_cases h12 : strContains (lowerStr key) "pershare" = true
  · simp [WebServer.classifyIndicator, sectionCatalog, h1, h2, h3, h4, h5, h6, h7, h8, h9, h10, h11, h12]
  by_cases h13 : (["ratio", "coverage"].any
      (fun t => strContains (lowerStr key) t)) = true
  · simp [WebServer.classifyIndicator, sectionCatalog, h1, h2, h3, h4, h5, h6, h7, h8, h9, h10, h11, h12, h13]
  by_cases h14 : (["recommendation"].any
      (fun t => strContains (lowerStr key) t)) = true
  · simp [WebServer.classifyIndicator, sectionCatalog, h1, h2, h3, h4, h5, h6, h7, h8, h9, h10, h11, h12, h13, h14]
  · simp [WebServer.classifyIndicator, sectionCatalog, h1, h2, h3, h4, h5, h6, h7, h8, h9, h10, h11, h12, h13, h14]

theorem classify_cli_mem (key : String) :
    CliMain.classifyIndicator key ∈ sectionCatalog := by
  by_cases h1 : key = "quote_timestamp"
  · simp [CliMain.classifyIndicator, sectionCatalog, h1]
  by_cases h2 : key = "previous_close"
  · simp [CliMain.classifyIndicator, sectionCatalog, h1, h2]
  by_cases h3 : (["volume", "liquidity"].any
      (fun t => strContains (lowerStr key) t)) = true
  · simp [CliMain.classifyIndicator, sectionCatalog, h1, h2, h3]
  by_cases h4 : key ∈ (["beta", "moving_averages", "rsi", "macd"] : List String)
  · simp [CliMain.classifyIndicator, sectionCatalog, h1, h2, h3, h4]
  by_cases h5 : (["price", "return", "weekhigh", "weeklow"].any
      (fun t => strContains (lowerStr key) t)) = true
  · simp [CliMain.classifyIndicator, sectionCatalog, h1, h2, h3, h4, h5]
  by_cases h6 : (["marketcap", "enterprisevalue", "ev", "pe"].any
      (fun t => strContains (lowerStr key) t)) = true
  · simp [CliMain.classifyIndicator, sectionCatalog, h1, h2, h3, h4, h5, h6]
  by_cases h7 : strStartsWith (lowerStr key) "eps" = true
  · simp [CliMain.classifyIndicator, sectionCatalog, h1, h2, h3, h4, h5, h6, h7]
  by_cases h8 : (["margin", "profit", "operatingmargin"].any
      (fun t => strContains (lowerStr key) t)) = true
  · by_cases hg : strContains (lowerStr key) "growth" = true
    · simp [CliMain.classifyIndicator, sectionCatalog, h1, h2, h3, h4, h5, h6, h7, h8, hg]
    · simp [CliMain.classifyIndicator, sectionCatalog, h1, h2, h3, h4, h5, h6, h7, h8, hg]
  by_cases h9 : (["growth", "cagr", "yoy"].any
      (fun t => strContains (lowerStr key) t)) = true
  · simp [CliMain.classifyIndicator, sectionCatalog, h1, h2, h3, h4, h5, h6, h7, h8, h9]
  by_cases h10 : (["cashflow", "free_cash_flow", "capex"].any
      (fun t => strContains (lowerStr key) t)) = true
  · simp [CliMain.classifyIndicator, sectionCatalog, h1, h2, h3, h4, h5, h6, h7, h8, h9, h10]
  by_cases h11 : (["cash", "debt", "equity", "bookvalue"].any
      (fun t => strContains (lowerStr key) t)) = true
  · simp [CliMain.classifyIndicator, sectionCatalog, h1, h2, h3, h4, h5, h6, h7, h8, h9, h10, h11]
  by_cases h12 : strContains (lowerStr key) "pershare" = true
  · simp [CliMain.classifyIndicator, sectionCatalog, h1, h2, h3, h4, h5, h6, h7, h8, h9, h10, h11, h12]
  by_cases h13 : (["ratio", "coverage"].any
      (fun t => strContains (lowerStr key) t)) = true
  · simp [CliMain.classifyIndicator, sectionCatalog, h1, h2, h3, h4, h5, h6, h7, h8, h9, h10, h11, h12, h13]
  by_cases h14 : (["recommendation"].any
      (fun t => strContains (lowerStr key) t)) = true
  · simp [CliMain.classifyIndicator, sectionCatalog, h1, h2, h3, h4, h5, h6, h7, h8, h9, h10, h11, h12, h13, h14]
  · simp [CliMain.classifyIndicator, sectionCatalog, h1, h2, h3, h4, h5, h6, h7, h8, h9, h10, h11, h12, h13, h14]

theorem classify_single_mem (key : String) :
    SingleStock.classifyIndicator key ∈ sectionCatalog := by
  by_cases h1 : key = "quote_timestamp"
  · simp [SingleStock.classifyIndicator, sectionCatalog, h1]
  by_cases h2 : key = "previous_close"
  · simp [SingleStock.classifyIndicator, sectionCatalog, h1, h2]
  by_cases h4 : key ∈ (["beta", "moving_averages", "rsi", "macd"] : List String)
  · simp [SingleStock.classifyIndicator, sectionCatalog, h1, h2, h4]
  by_cases h3 : (["volume", "liquidity"].any
      (fun t => strContains (lowerStr key) t)) = true
  · simp [SingleStock.classifyIndicator, sectionCatalog, h1, h2, h4, h3]
  by_cases h5 : (["price", "return", "weekhigh", "weeklow"].any
      (fun t => strContains (lowerStr key) t)) = true
  · simp [SingleStock.classifyIndicator, sectionCatalog, h1, h2, h4, h3, h5]
  by_cases h6 : (["marketcap", "enterprisevalue", "ev", "pe"].any
      (fun t => strContains (lowerStr key) t)) = true
  · simp [SingleStock.classifyIndicator, sectionCatalog, h1, h2, h4, h3, h5, h6]
  by_cases h7 : strStartsWith (lowerStr key) "eps" = true
  · simp [SingleStock.classifyIndicator, sectionCatalog, h1, h2, h4, h3, h5, h6, h7]
  by_cases h8 : (["margin", "profit", "operatingmargin"].any
      (fun t => strContains (lowerStr key) t)) = true
  · by_cases hg : strContains (lowerStr key) "growth" = true
    · simp [SingleStock.classifyIndicator, sectionCatalog, h1, h2, h4, h3, h5, h6, h7, h8, hg]
    · simp [SingleStock.classifyIndicator, sectionCatalog, h1, h2, h4, h3, h5, h6, h7, h8, hg]
  by_cases h9 : (["growth", "cagr", "yoy"].any
      (fun t => strContains (lowerStr key) t)) = true
  · simp [SingleStock.classifyIndicator, sectionCatalog, h1, h2, h4, h3, h5, h6, h7, h8, h9]
  by_cases h10 : (["cashflow", "free_cash_flow", "capex"].any
      (fun t => strContains (lowerStr key) t)) = true
  · simp [SingleStock.classifyIndicator, sectionCatalog, h1, h2, h4, h3, h5, h6, h7, h8, h9, h10]
  by_cases h11 : (["cash", "debt", "equity", "bookvalue"].any
      (fun t => strContains (lowerStr key) t)) = true
  · simp [SingleStock.classifyIndicator, sectionCatalog, h1, h2, h4, h3, h5, h6, h7, h8, h9, h10, h11]
  by_cases h12 : strContains (lowerStr key) "pershare" = true
  · simp [SingleStock.classifyIndicator, sectionCatalog, h1, h2, h4, h3, h5, h6, h7, h8, h9, h10, h11, h12]
  by_cases h13 : (["ratio", "coverage"].any
      (fun t => strContains (lowerStr key) t)) = true
  · simp [SingleStock.classifyIndicator, sectionCatalog, h1, h2, h4, h3, h5, h6, h7, h8, h9, h10, h11, h12, h13]
  · simp [SingleStock.classifyIndicator, sectionCatalog, h1, h2, h4, h3, h5, h6, h7, h8, h9, h10, h11, h12, h13]

/-- The union of every rule condition appearing in the classifier copies
(the recommendation rule included); keys on which this is `false` reach the
default fallback in each copy. -/
def classifierRuleMatches (key : String) : Bool :=
  decide (key = "quote_timestamp") || decide (key = "previous_close")
  || ["volume", "liquidity"].any (fun t => strContains (lowerStr key) t)
  || decide (key ∈ (["beta", "moving_averages", "rsi", "macd"] : List String))
  || ["price", "return", "weekhigh", "weeklow"].any (fun t => strContains (lowerStr key) t)
  || ["marketcap", "enterprisevalue", "ev", "pe"].any (fun t => strContains (lowerStr key) t)
  || strStartsWith (lowerStr key) "eps"
  || ["margin", "profit", "operatingmargin"].any (fun t => strContains (lowerStr key) t)
  || ["growth", "cagr", "yoy"].any (fun t => strContains (lowerStr key) t)
  || ["cashflow", "free_cash_flow", "capex"].any (fun t => strContains (lowerStr key) t)
  || ["cash", "debt", "equity", "bookvalue"].any (fun t => strContains (lowerStr key) t)
  || strContains (lowerStr key) "pershare"
  || ["ratio", "coverage"].any (fun t => strContains (lowerStr key) t)
  || ["recommendation"].any (fun t => strContains (lowerStr key) t)

theorem classify_default (key : String)
    (h : classifierRuleMatches key = false) :
    WebServer.classifyIndicator key = "Price & Returns"
    ∧ CliMain.classifyIndicator key = "Price & Returns"
    ∧ SingleStock.classifyIndicator key = "Price & Returns" := by
  simp only [classifierRuleMatches, Bool.or_eq_false_iff,
    decide_eq_false_iff_not] at h
  obtain ⟨⟨⟨⟨⟨⟨⟨⟨⟨⟨⟨⟨⟨hq, hp⟩, hv⟩, hb⟩, hpr⟩, hval⟩, heps⟩, hm⟩, hg⟩, hcf⟩,
    hbs⟩, hps⟩, hr⟩, hrec⟩ := h
  unfold WebServer.classifyIndicator CliMain.classifyIndicator
    SingleStock.classifyIndicator
  simp [hq, hp, hv, hb, hpr, hval, heps, hm, hg, hcf, hbs, hps, hr, hrec]

/-! ### Label length budget (web label generator) -/

theorem pySlice_length (s : String) (n : Nat) :
    (pySlice s n).length = min n s.length :=
  List.length_take n s.data

theorem shortenLabel_length_le (label : String) (maxLen : Nat)
    (h : 1 ≤ maxLen) :
    (WebServer.shortenLabel label maxLen).length ≤ maxLen := by
  unfold WebServer.shortenLabel
  by_cases ht :
      (WebServer.applyReplacements maxLen WebServer.labelReplacements label).length
        > maxLen
  · rw [if_pos ht]
    rw [String.length_append, pySlice_length]
    have h1 := min_le_left (maxLen - 1)
      (WebServer.applyReplacements maxLen WebServer.labelReplacements label).length
    have h2 : ("…" : String).length = 1 := rfl
    omega
  · rw [if_neg ht]
    exact le_of_not_lt ht

theorem labelForKey_length_le (key : String) :
    (WebServer.labelForKey key).length ≤ 26 := by
  unfold WebServer.labelForKey
  have hb : WebServer.budgetSourceValue.length = 26 := by decide
  rw [hb]
  by_cases h :
      (WebServer.overrideOrDefault key (WebServer.toTitleCamel key)).length > 26
  · rw [if_pos h]
    exact shortenLabel_length_le _ 26 (by omega)
  · rw [if_neg h]
    exact le_of_not_lt h

/-! ### Serialization never emits a Python `None` -/

theorem formatCurrency_not_none (v : PyVal) (h : v.isNone = false) :
    (formatCurrency v).isNone = false := by
  cases v <;> simp_all [formatCurrency, toFloatQ, PyVal.isNone]

theorem formatCompactCurrency_not_none (v : PyVal) (h : v.isNone = false) :
    (formatCompactCurrency v).isNone = false := by
  cases v <;> simp_all [formatCompactCurrency, toFloatQ, PyVal.isNone]

theorem formatPercent_not_none (v : PyVal) (h : v.isNone = false) :
    (formatPercent v).isNone = false := by
  cases v <;> simp_all [formatPercent, toFloatQ, PyVal.isNone]

theorem formatRatioValue_not_none (v : PyVal) (h : v.isNone = false) :
    (formatRatioValue v).isNone = false := by
  cases v <;> simp_all [formatRatioValue, toFloatQ, PyVal.isNone]

theorem formatShares_not_none (v : PyVal) (h : v.isNone = false) :
    (formatShares v).isNone = false := by
  cases v <;> simp_all [formatShares, toFloatQ, PyVal.isNone]

theorem formatSharesFromMillions_not_none (v : PyVal) (h : v.isNone = false) :
    (formatSharesFromMillions v).isNone = false := by
  cases v <;> simp_all [formatSharesFromMillions, toFloatQ, PyVal.isNone]

theorem formatMarketCap_not_none (v : PyVal) (h : v.isNone = false) :
    (formatMarketCap v).isNone = false := by
  cases v <;> simp_all [formatMarketCap, toFloatQ, PyVal.isNone]

theorem formatTimestamp_not_none (tsR : Rat → Option String) (v : PyVal)
    (h : v.isNone = false) : (formatTimestamp tsR v).isNone = false := by
  cases v <;>
    simp_all [formatTimestamp, toFloatQ, PyVal.isNone] <;>
    rename_i q <;>
    cases tsR q <;> simp [PyVal.isNone]

set_option maxHeartbeats 1000000 in
theorem formatMetricValue_not_none (key : String) (v : PyVal) (w : PyVal)
    (h : v.isNone = false) (hw : formatMetricValue key v = some w) :
    w.isNone = false := by
  unfold formatMetricValue at hw
  rw [if_neg (by simp [h])] at hw
  repeat' split at hw
  all_goals first
    | (injection hw with hw
       subst hw
       first
         | exact formatSharesFromMillions_not_none v h
         | exact formatCompactCurrency_not_none v h
         | exact formatCurrency_not_none v h
         | exact formatRatioValue_not_none v h
         | exact formatPercent_not_none v h)
    | injection hw

theorem formatBaseValue_not_none (tsR : Rat → Option String) (key : String)
    (v : PyVal) (h : v.isNone = false) :
    (formatBaseValue tsR key v).isNone = false := by
  unfold formatBaseValue
  rw [if_neg (by simp [h])]
  split
  · exact formatTimestamp_not_none tsR v h
  split
  · exact formatPercent_not_none v h
  split
  · exact formatCurrency_not_none v h
  split
  · exact formatCurrency_not_none v h
  split
  · exact formatShares_not_none v h
  split
  · exact formatPercent_not_none v h
  split
  · exact formatRatioValue_not_none v h
  split
  · exact formatCompactCurrency_not_none v h
  cases hm : formatMetricValue key v with
  | some w =>
    simp only [hm]
    exact formatMetricValue_not_none key v w h hm
  | none =>
    simp only [hm]
    cases v <;> simp_all [PyVal.isNone]

theorem formatAnalysisValue_not_none (key : String) (v : PyVal)
    (h : v.isNone = false) : (formatAnalysisValue key v).isNone = false := by
  unfold formatAnalysisValue
  rw [if_neg (by simp [h])]
  split
  · split
    · simp [PyVal.isNone]
    · split
      · exact formatPercent_not_none v h
      split
      · exact formatCurrency_not_none v h
      split
      · exact formatRatioValue_not_none v h
      · exact h
  split
  · exact formatPercent_not_none v h
  split
  · exact formatCurrency_not_none v h
  split
  · exact formatRatioValue_not_none v h
  · exact h

/-! ### Keys of the embedded dict operations -/

theorem updateOne_fst {α : Type} (d : List (String × α)) (k : String) (v : α) :
    (updateOne d k v).map Prod.fst =
      if d.any (fun p => p.1 = k) then d.map Prod.fst
      else d.map Prod.fst ++ [k] := by
  unfold updateOne
  split
  · rw [List.map_map]
    apply List.map_congr_left
    intro p _
    by_cases hp : p.1 = k
    · simp [hp]
    · simp [hp]
  · rw [List.map_append]
    rfl

theorem updateOne_keys_nodup {α : Type} (d : List (String × α)) (k : String)
    (v : α) (h : (d.map Prod.fst).Nodup) :
    ((updateOne d k v).map Prod.fst).Nodup := by
  rw [updateOne_fst]
  split
  · exact h
  · rw [List.nodup_append]
    refine ⟨h, List.nodup_singleton k, ?_⟩
    intro a ha
    simp only [List.mem_singleton]
    intro hak
    subst hak
    rename_i hany
    rw [List.any_eq_true] at hany
    rcases List.mem_map.mp ha with ⟨p, hp, rfl⟩
    exact hany ⟨p, hp, by simp⟩

theorem dictUpdate_keys_nodup {α : Type} (e d : List (String × α))
    (h : (d.map Prod.fst).Nodup) :
    ((dictUpdate d e).map Prod.fst).Nodup := by
  induction e generalizing d with
  | nil => exact h
  | cons p e ih =>
    exact ih (updateOne d p.1 p.2) (updateOne_keys_nodup d p.1 p.2 h)

theorem updateOne_keys_mem {α : Type} (d : List (String × α)) (k k' : String)
    (v : α) (h : k' ∈ (updateOne d k v).map Prod.fst) :
    k' ∈ d.map Prod.fst ∨ k' = k := by
  rw [updateOne_fst] at h
  split at h
  · exact Or.inl h
  · rcases List.mem_append.mp h with h1 | h1
    · exact Or.inl h1
    · exact Or.inr (List.mem_singleton.mp h1)

theorem dictUpdate_keys_mem {α : Type} (e d : List (String × α)) (k : String)
    (h : k ∈ (dictUpdate d e).map Prod.fst) :
    k ∈ d.map Prod.fst ∨ k ∈ e.map Prod.fst := by
  induction e generalizing d with
  | nil => exact Or.inl h
  | cons p e ih =>
    rcases ih (updateOne d p.1 p.2) h with h1 | h1
    · rcases updateOne_keys_mem d p.1 k p.2 h1 with h2 | h2
      · exact Or.inl h2
      · exact Or.inr (by simp [h2])
    · exact Or.inr (List.mem_cons_of_mem _ h1)

theorem dictGet_of_mem_nodup (d : List (String × PyVal)) (k : String)
    (v : PyVal) (hn : (d.map Prod.fst).Nodup) (hm : (k, v) ∈ d) :
    dictGet d k = some v := by
  induction d with
  | nil => cases hm
  | cons p d ih =>
    rcases List.mem_cons.mp hm with rfl | hmem
    · unfold dictGet
      rw [List.find?_cons_of_pos _ (by simp)]
      rfl
    · have hk : p.1 ≠ k := by
        intro hh
        rw [List.map_cons, List.nodup_cons] at hn
        apply hn.1
        rw [hh]
        exact List.mem_map.mpr ⟨(k, v), hmem, rfl⟩
      unfold dictGet
      rw [List.find?_cons_of_neg _ (by simp [hk])]
      exact ih (List.nodup_cons.mp (by simpa using hn)).2 hmem

/-! ### The serializers drop `None` and only `None` -/

theorem baseData_keys (b : StockBaseIndicators) :
    (baseData b).map Prod.fst =
      ["symbol", "open_price", "high_price", "low_price", "close_price",
       "volume", "market_cap", "enterprise_value", "beta",
       "short_interest_pct_float", "cash_and_equivalents", "total_debt",
       "capex", "operating_cash_flow", "free_cash_flow", "fcf_margin",
       "cash_conversion"] := rfl

theorem mergedBase_keys_nodup (b : StockBaseIndicators) :
    ((mergedBase b).map Prod.fst).Nodup := by
  apply dictUpdate_keys_nodup
  rw [baseData_keys]
  decide

theorem mem_orderedBasePairs (b : StockBaseIndicators) (k : String) (v : PyVal)
    (h : (k, v) ∈ orderedBasePairs b) : dictGet (mergedBase b) k = some v := by
  unfold orderedBasePairs at h
  rcases List.mem_append.mp h with h1 | h1
  · rcases List.mem_filterMap.mp h1 with ⟨k', _, hk'⟩
    rcases Option.map_eq_some'.mp hk' with ⟨v', hv', heq⟩
    injection heq with heq1 heq2
    subst heq1
    subst heq2
    exact hv'
  · exact dictGet_of_mem_nodup _ k v (mergedBase_keys_nodup b)
      (List.mem_of_mem_filter h1)

theorem baseAsDict_values_not_none (tsR : Rat → Option String)
    (b : StockBaseIndicators) (p : String × PyVal)
    (hp : p ∈ baseAsDict tsR b) : p.2.isNone = false := by
  unfold baseAsDict at hp
  rcases List.mem_filterMap.mp hp with ⟨q, _, hq⟩
  by_cases hn : q.2.isNone
  · rw [if_pos hn] at hq
    cases hq
  · rw [if_neg hn] at hq
    injection hq with hq
    subst hq
    exact formatBaseValue_not_none tsR q.1 q.2 (by simpa using hn)

theorem baseAsDict_omits_none (tsR : Rat → Option String)
    (b : StockBaseIndicators) (k : String)
    (h : dictGet (mergedBase b) k = some PyVal.vnone) :
    k ∉ (baseAsDict tsR b).map Prod.fst := by
  intro hmem
  rcases List.mem_map.mp hmem with ⟨p, hp, rfl⟩
  unfold baseAsDict at hp
  rcases List.mem_filterMap.mp hp with ⟨q, hq, hq2⟩
  by_cases hn : q.2.isNone
  · rw [if_pos hn] at hq2
    cases hq2
  · rw [if_neg hn] at hq2
    injection hq2 with hq2
    subst hq2
    have hget := mem_orderedBasePairs b q.1 q.2 hq
    have h' : dictGet (mergedBase b) q.1 = some PyVal.vnone := by
      simpa using h
    have hv := hget.symm.trans h'
    injection hv with hv
    rw [hv] at hn
    exact hn rfl

theorem analysisAsDict_values_not_none (a : StockAnalysisIndicators)
    (p : String × PyVal) (hp : p ∈ analysisAsDict a) : p.2.isNone = false := by
  unfold analysisAsDict at hp
  rcases List.mem_filterMap.mp hp with ⟨q, _, hq⟩
  by_cases hn : q.2.isNone
  · rw [if_pos hn] at hq
    cases hq
  · rw [if_neg hn] at hq
    injection hq with hq
    subst hq
    exact formatAnalysisValue_not_none q.1 q.2 (by simpa using hn)

theorem snapshotAsDict_no_analysis (tsR : Rat → Option String)
    (s : StockIndicatorSnapshot) (h : s.analysis = none) :
    "analysis" ∉ (snapshotAsDict tsR s).map Prod.fst := by
  unfold snapshotAsDict
  rw [h]
  simp

/-! ### Enterprise value: all-or-nothing derivation -/

theorem ev_match_eq_bind (a b c : Option Rat) :
    (match a, b, c with
      | some mc, some td, some ce => some (ratSub (ratAdd mc td) ce)
      | _, _, _ => none)
      = a.bind (fun mc => b.bind (fun td =>
          c.map (fun ce => mc + td - ce))) := by
  cases a <;> cases b <;> cases c <;> simp [ratAdd_eq, ratSub_eq]

theorem build_enterprise_value (fps : PyVal → String) (symbol : String)
    (quote profile metrics : List (String × PyVal))
    (recommendationRows : List RecRow) (includeAnalysis : Bool) :
    (buildBaseIndicators fps symbol quote profile metrics recommendationRows
        includeAnalysis).enterprise_value
      = (toFloatQ (pyGet profile "marketCapitalization")).bind (fun mc =>
          (metricFloat metrics ["totalDebt", "totalDebtTTM", "totalDebtAnnual"]).bind
            (fun td =>
              (metricFloat metrics
                ["cashAndCashEquivalents", "cashAndCashEquivalentsTTM",
                 "cashAndCashEquivalentsAnnual", "totalCash"]).map
                (fun ce => mc + td - ce))) := by
  have h : (buildBaseIndicators fps symbol quote profile metrics
      recommendationRows includeAnalysis).enterprise_value
      = (match toFloatQ (pyGet profile "marketCapitalization"),
          metricFloat metrics ["totalDebt", "totalDebtTTM", "totalDebtAnnual"],
          metricFloat metrics
            ["cashAndCashEquivalents", "cashAndCashEquivalentsTTM",
             "cashAndCashEquivalentsAnnual", "totalCash"] with
        | some mc, some td, some ce => some (ratSub (ratAdd mc td) ce)
        | _, _, _ => none) := rfl
  rw [h, ev_match_eq_bind]

/-! ### No recommendation keys without recommendation rows -/

theorem extractStep_keys (metrics acc : List (String × PyVal)) (kk k : String)
    (h : k ∈ (extractStep metrics acc kk).map Prod.fst) :
    k ∈ acc.map Prod.fst ∨ k = aliasKey kk := by
  unfold extractStep at h
  split at h
  · exact Or.inl h
  · split at h
    · exact Or.inl h
    · split at h
      · exact Or.inl h
      · exact updateOne_keys_mem acc (aliasKey kk) k _ h

theorem extractFold_keys (metrics : List (String × PyVal)) (k : String) :
    ∀ (keys : List String) (acc : List (String × PyVal)),
      k ∈ ((keys.foldl (extractStep metrics) acc).map Prod.fst) →
      k ∈ acc.map Prod.fst ∨ k ∈ keys.map aliasKey := by
  intro keys
  induction keys with
  | nil => exact fun acc h => Or.inl h
  | cons kk keys ih =>
    intro acc h
    rcases ih (extractStep metrics acc kk) h with h1 | h1
    · rcases extractStep_keys metrics acc kk k h1 with h2 | h2
      · exact Or.inl h2
      · exact Or.inr (by simp [h2])
    · exact Or.inr (List.mem_cons_of_mem _ h1)

theorem extractMetricExtras_keys (metrics : List (String × PyVal)) (k : String)
    (h : k ∈ (extractMetricExtras metrics).map Prod.fst) :
    k ∈ extractKeys.map aliasKey := by
  rcases extractFold_keys metrics k extractKeys [] h with h1 | h1
  · cases h1
  · exact h1

theorem extraAfterPrevClose_keys (quote : List (String × PyVal)) (k : String)
    (h : k ∈ (extraAfterPrevClose quote).map Prod.fst) :
    k = "previous_close" := by
  unfold extraAfterPrevClose at h
  split at h
  · rcases updateOne_keys_mem _ _ _ _ h with h1 | h1
    · cases h1
    · exact h1
  · cases h

theorem extraQuoteStage_keys (quote : List (String × PyVal)) (k : String)
    (h : k ∈ (extraQuoteStage quote).map Prod.fst) :
    k = "previous_close" ∨ k = "quote_timestamp" := by
  unfold extraQuoteStage at h
  split at h
  · exact Or.inl (extraAfterPrevClose_keys quote k h)
  · rcases updateOne_keys_mem _ _ _ _ h with h1 | h1
    · exact Or.inl (extraAfterPrevClose_keys quote k h1)
    · exact Or.inr h1

theorem extraMetricsStage_keys (quote metrics : List (String × PyVal))
    (k : String) (h : k ∈ (extraMetricsStage quote metrics).map Prod.fst) :
    k = "previous_close" ∨ k = "quote_timestamp"
      ∨ k ∈ extractKeys.map aliasKey := by
  unfold extraMetricsStage at h
  split at h
  · rcases extraQuoteStage_keys quote k h with h1 | h1
    · exact Or.inl h1
    · exact Or.inr (Or.inl h1)
  · rcases dictUpdate_keys_mem _ _ k h with h1 | h1
    · rcases extraQuoteStage_keys quote k h1 with h2 | h2
      · exact Or.inl h2
      · exact Or.inr (Or.inl h2)
    · exact Or.inr (Or.inr (extractMetricExtras_keys metrics k h1))

theorem summarise_nil (fps : PyVal → String) :
    summariseRecommendation fps [] = none := rfl

theorem extraWithRsi_keys (quote metrics : List (String × PyVal))
    (k : String) (h : k ∈ (extraWithRsi quote metrics).map Prod.fst) :
    k = "previous_close" ∨ k = "quote_timestamp"
      ∨ k ∈ extractKeys.map aliasKey ∨ k = "rsi" := by
  unfold extraWithRsi at h
  split at h
  · rcases updateOne_keys_mem _ _ _ _ h with h1 | h1
    · rcases extraMetricsStage_keys quote metrics k h1 with h2 | h2 | h2
      · exact Or.inl h2
      · exact Or.inr (Or.inl h2)
      · exact Or.inr (Or.inr (Or.inl h2))
    · exact Or.inr (Or.inr (Or.inr h1))
  · rcases extraMetricsStage_keys quote metrics k h with h2 | h2 | h2
    · exact Or.inl h2
    · exact Or.inr (Or.inl h2)
    · exact Or.inr (Or.inr (Or.inl h2))

theorem extraWithMacd_keys (quote metrics : List (String × PyVal))
    (k : String) (h : k ∈ (extraWithMacd quote metrics).map Prod.fst) :
    k = "previous_close" ∨ k = "quote_timestamp"
      ∨ k ∈ extractKeys.map aliasKey ∨ k = "rsi" ∨ k = "macd" := by
  unfold extraWithMacd at h
  split at h
  · rcases updateOne_keys_mem _ _ _ _ h with h1 | h1
    · rcases extraWithRsi_keys quote metrics k h1 with h2 | h2 | h2 | h2
      · exact Or.inl h2
      · exact Or.inr (Or.inl h2)
      · exact Or.inr (Or.inr (Or.inl h2))
      · exact Or.inr (Or.inr (Or.inr (Or.inl h2)))
    · exact Or.inr (Or.inr (Or.inr (Or.inr h1)))
  · rcases extraWithRsi_keys quote metrics k h with h2 | h2 | h2 | h2
    · exact Or.inl h2
    · exact Or.inr (Or.inl h2)
    · exact Or.inr (Or.inr (Or.inl h2))
    · exact Or.inr (Or.inr (Or.inr (Or.inl h2)))

theorem buildExtra_empty_rows_keys (fps : PyVal → String)
    (quote metrics : List (String × PyVal)) (includeAnalysis : Bool)
    (k : String)
    (h : k ∈ (buildExtra fps quote metrics [] includeAnalysis).map Prod.fst) :
    k = "previous_close" ∨ k = "quote_timestamp"
      ∨ k ∈ extractKeys.map aliasKey ∨ k = "rsi" ∨ k = "macd" := by
  unfold buildExtra at h
  split at h
  · unfold extraAnalysisStage at h
    rw [summarise_nil] at h
    exact extraWithMacd_keys quote metrics k h
  · rcases extraMetricsStage_keys quote metrics k h with h3 | h3 | h3
    · exact Or.inl h3
    · exact Or.inr (Or.inl h3)
    · exact Or.inr (Or.inr (Or.inl h3))

/-! ### The default branch of the base-value formatter -/

/-- The union of every rule that can capture a key in `_format_base_value`
(exact-key overrides, fixed category sets, and the keyword rules of
`_format_metric_value`); keys on which this is `false` reach the final
default branch. -/
def formatRuleMatches (key : String) : Bool :=
  decide (key = "quote_timestamp") || decide (key = "rsi")
  || decide (key = "macd")
  || decide (key ∈ (["open_price", "high_price", "low_price", "close_price",
      "previous_close"] : List String))
  || decide (key ∈ (["volume"] : List String))
  || decide (key ∈ (["short_interest_pct_float", "fcf_margin",
      "cash_conversion"] : List String))
  || decide (key ∈ (["beta"] : List String))
  || decide (key ∈ (["market_cap", "enterprise_value", "cash_and_equivalents",
      "total_debt", "capex", "operating_cash_flow",
      "free_cash_flow"] : List String))
  || decide (key = "10DayAverageTradingVolume"
      ∨ key = "3MonthAverageTradingVolume")
  || strContains (lowerStr key) "marketcapitalization"
  || decide (strContains (lowerStr key) "weekhigh" = true
      ∨ strContains (lowerStr key) "weeklow" = true)
  || ["pershare", "eps", "netincomeemployee"].any
      (fun t => strContains (lowerStr key) t)
  || decide ((["currentratio", "debt/equity", "totaldebt/totalequity", "ev/",
      "coverage"].any (fun t => strContains (lowerStr key) t)) = true
      ∨ strStartsWith (lowerStr key) "pe" = true)
  || ["return", "growth", "margin", "cagr", "yoy", "payout",
      "pricerelativetosp500", "std"].any (fun t => strContains (lowerStr key) t)

theorem formatBaseValue_default (tsR : Rat → Option String) (key : String)
    (v : PyVal) (h : formatRuleMatches key = false) :
    formatBaseValue tsR key v =
      match v with
      | PyVal.vnone => PyVal.vnone
      | PyVal.vfloat q => PyVal.vstr (fmt2 q)
      | w => w := by
  simp only [formatRuleMatches, Bool.or_eq_false_iff,
    decide_eq_false_iff_not] at h
  obtain ⟨⟨⟨⟨⟨⟨⟨⟨⟨⟨⟨⟨⟨hts, hrsi⟩, hmacd⟩, hprice⟩, hvol⟩, hpct⟩, hbeta⟩,
    hcc⟩, hshm⟩, hmcap⟩, hweek⟩, hpshare⟩, hratio⟩, hpercent⟩ := h
  rw [List.mem_singleton] at hvol hbeta
  simp only [List.mem_cons, List.not_mem_nil, or_false, not_or]
    at hprice hpct hcc hshm hweek hratio
  cases v with
  | vnone => rfl
  | vint n =>
    unfold formatBaseValue formatMetricValue
    simp [hts, hrsi, hmacd, hprice, hvol, hpct, hbeta, hcc, hshm, hmcap,
      hweek, hpshare, hratio, hpercent, PyVal.isNone]
  | vfloat q =>
    unfold formatBaseValue formatMetricValue
    simp [hts, hrsi, hmacd, hprice, hvol, hpct, hbeta, hcc, hshm, hmcap,
      hweek, hpshare, hratio, hpercent, PyVal.isNone]
  | vstr s =>
    unfold formatBaseValue formatMetricValue
    simp [hts, hrsi, hmacd, hprice, hvol, hpct, hbeta, hcc, hshm, hmcap,
      hweek, hpshare, hratio, hpercent, PyVal.isNone]
  | vdict d =>
    unfold formatBaseValue formatMetricValue
    simp [hts, hrsi, hmacd, hprice, hvol, hpct, hbeta, hcc, hshm, hmcap,
      hweek, hpshare, hratio, hpercent, PyVal.isNone]

/-! ### Claim theorems -/

/-- C1: with operating cash flow 500 and capex 120 the derived
`free_cash_flow` is 380, and with revenue 2000 the derived `fcf_margin` is
the fraction 380/2000 = 0.19; the percent formatter renders that raw value
as the text `0.19%` (it appends the percent sign without scaling the
fraction by 100), not `19.00%` as the spec states. -/
theorem claim_C1 :
    (buildBaseIndicators (fun _ => "") "TEST" [] []
      [("operatingCashFlow", PyVal.vfloat (mkRat 500 1)),
       ("capitalExpenditure", PyVal.vfloat (mkRat 120 1)),
       ("revenueTTM", PyVal.vfloat (mkRat 2000 1))] [] true).free_cash_flow
        = some (mkRat 380 1)
    ∧ (buildBaseIndicators (fun _ => "") "TEST" [] []
      [("operatingCashFlow", PyVal.vfloat (mkRat 500 1)),
       ("capitalExpenditure", PyVal.vfloat (mkRat 120 1)),
       ("revenueTTM", PyVal.vfloat (mkRat 2000 1))] [] true).fcf_margin
        = some (mkRat 19 100)
    ∧ (mkRat 19 100 : Rat) = 380 / 2000
    ∧ formatBaseValue (fun _ => none) "fcf_margin" (PyVal.vfloat (mkRat 19 100))
        = PyVal.vstr "0.19%"
    ∧ PyVal.vstr "0.19%" ≠ PyVal.vstr "19.00%" :=
  ⟨rfl, rfl, by rw [Rat.mkRat_eq_div]; norm_num, rfl,
   fun h => absurd (PyVal.vstr.inj h) (by decide)⟩

/-- C2: the recommendation summary always comes from the row whose period
string is lexicographically largest, and within it the bucket with the
highest numeric count wins with ties broken in the fixed Strong Buy, Buy,
Hold, Sell, Strong Sell order (`specSummarise` renders exactly those
words); on the two concrete rows of the claim the summary is
`Strong Buy`. -/
theorem claim_C2 :
    (∀ (fps : PyVal → String) (rows : List RecRow),
      summariseRecommendation fps rows = specSummarise fps rows)
    ∧ (∀ fps : PyVal → String,
        summariseRecommendation fps
          [[("period", PyVal.vstr "2024-03-31"), ("strongBuy", PyVal.vint 5),
            ("buy", PyVal.vint 10), ("hold", PyVal.vint 2),
            ("sell", PyVal.vint 0), ("strongSell", PyVal.vint 1)],
           [("period", PyVal.vstr "2024-06-30"), ("strongBuy", PyVal.vint 20),
            ("buy", PyVal.vint 3), ("hold", PyVal.vint 1),
            ("sell", PyVal.vint 0), ("strongSell", PyVal.vint 0)]]
          = some "Strong Buy") :=
  ⟨summarise_eq_spec, fun _ => rfl⟩

/-- C3: `enterprise_value` is the monadic sum `market_cap + total_debt −
cash_and_equivalents` over the three resolved inputs: it is `some` exactly
when all three alias lookups resolve to numbers, and its value is never
partially computed. -/
theorem claim_C3 (fps : PyVal → String) (symbol : String)
    (quote profile metrics : List (String × PyVal))
    (recommendationRows : List RecRow) (includeAnalysis : Bool) :
    ((buildBaseIndicators fps symbol quote profile metrics recommendationRows
        includeAnalysis).enterprise_value
      = (toFloatQ (pyGet profile "marketCapitalization")).bind (fun mc =>
          (metricFloat metrics
            ["totalDebt", "totalDebtTTM", "totalDebtAnnual"]).bind (fun td =>
              (metricFloat metrics
                ["cashAndCashEquivalents", "cashAndCashEquivalentsTTM",
                 "cashAndCashEquivalentsAnnual", "totalCash"]).map
                (fun ce => mc + td - ce))))
    ∧ ((buildBaseIndicators fps symbol quote profile metrics recommendationRows
        includeAnalysis).enterprise_value.isSome
      ↔ (toFloatQ (pyGet profile "marketCapitalization")).isSome
        ∧ (metricFloat metrics
            ["totalDebt", "totalDebtTTM", "totalDebtAnnual"]).isSome
        ∧ (metricFloat metrics
            ["cashAndCashEquivalents", "cashAndCashEquivalentsTTM",
             "cashAndCashEquivalentsAnnual", "totalCash"]).isSome) := by
  refine ⟨build_enterprise_value fps symbol quote profile metrics
    recommendationRows includeAnalysis, ?_⟩
  rw [build_enterprise_value]
  cases toFloatQ (pyGet profile "marketCapitalization") <;>
    cases metricFloat metrics ["totalDebt", "totalDebtTTM", "totalDebtAnnual"] <;>
      cases metricFloat metrics
        ["cashAndCashEquivalents", "cashAndCashEquivalentsTTM",
         "cashAndCashEquivalentsAnnual", "totalCash"] <;>
        simp

/-- C4 counterexample: compact-currency formatting of the raw value
1250000000.0 under the `market_cap` key yields `$1250.00T` (the input is
already in millions, and 1,250,000,000 million crosses the 1,000,000
threshold into the `T` suffix), not `$1.25B` as the claim states. -/
theorem claim_C4_counterexample :
    formatBaseValue (fun _ => none) "market_cap"
      (PyVal.vfloat (mkRat 1250000000 1)) = PyVal.vstr "$1250.00T"
    ∧ PyVal.vstr "$1250.00T" ≠ PyVal.vstr "$1.25B" :=
  ⟨rfl, fun h => absurd (PyVal.vstr.inj h) (by decide)⟩

/-- C4 amended: under the million-denominated scaling rule, the raw value
1250000000.0 for `market_cap` formats to `$1250.00T`; the output `$1.25B`
belongs to the raw value 1250.0.  At the scaling boundaries, 1,000,000
formats to `$1.00T`, 1,000 to `$1.00B`, and 999.99 to `$999.99M`. -/
theorem claim_C4 :
    formatBaseValue (fun _ => none) "market_cap"
      (PyVal.vfloat (mkRat 1250000000 1)) = PyVal.vstr "$1250.00T"
    ∧ formatBaseValue (fun _ => none) "market_cap"
      (PyVal.vfloat (mkRat 1250 1)) = PyVal.vstr "$1.25B"
    ∧ formatBaseValue (fun _ => none) "market_cap"
      (PyVal.vfloat (mkRat 1000000 1)) = PyVal.vstr "$1.00T"
    ∧ formatBaseValue (fun _ => none) "market_cap"
      (PyVal.vfloat (mkRat 1000 1)) = PyVal.vstr "$1.00B"
    ∧ formatBaseValue (fun _ => none) "market_cap"
      (PyVal.vfloat (mkRat 99999 100)) = PyVal.vstr "$999.99M" :=
  ⟨rfl, rfl, rfl, rfl, rfl⟩

/-- C5: each classifier copy is a total function into the fixed
eleven-section catalog, and a key matched by none of the rules falls back
to `Price & Returns` in every copy. -/
theorem claim_C5 (key : String) :
    (WebServer.classifyIndicator key ∈ sectionCatalog
      ∧ CliMain.classifyIndicator key ∈ sectionCatalog
      ∧ SingleStock.classifyIndicator key ∈ sectionCatalog)
    ∧ (classifierRuleMatches key = false →
        WebServer.classifyIndicator key = "Price & Returns"
        ∧ CliMain.classifyIndicator key = "Price & Returns"
        ∧ SingleStock.classifyIndicator key = "Price & Returns") :=
  ⟨⟨classify_web_mem key, classify_cli_mem key, classify_single_mem key⟩,
   classify_default key⟩

/-- C5 witness: the key `zzz` matches no rule and classifies to
`Price & Returns` in every copy. -/
theorem claim_C5_witness :
    classifierRuleMatches "zzz" = false
    ∧ (WebServer.classifyIndicator "zzz" = "Price & Returns"
      ∧ CliMain.classifyIndicator "zzz" = "Price & Returns"
      ∧ SingleStock.classifyIndicator "zzz" = "Price & Returns") :=
  ⟨by decide, (claim_C5 "zzz").2 (by decide)⟩

/-- C6 counterexample: on the key `recommendation` (which reaches the
recommendation rule) the CLI copy answers `3rd Party Recommendation` while
the web and single-stock copies answer `Price & Returns`, so the three
copies do not agree. -/
theorem claim_C6_counterexample :
    CliMain.classifyIndicator "recommendation" = "3rd Party Recommendation"
    ∧ WebServer.classifyIndicator "recommendation" = "Price & Returns"
    ∧ SingleStock.classifyIndicator "recommendation" = "Price & Returns"
    ∧ strContains (lowerStr "recommendation") "recommendation" = true
    ∧ ("3rd Party Recommendation" : String) ≠ "Price & Returns" :=
  ⟨by decide, by decide, by decide, by decide, by decide⟩

/-- C6 amended: the web and single-stock copies agree on every key; the CLI
copy agrees except on keys that reach the recommendation rule, which it
sends to `3rd Party Recommendation` while the other two send them to
`Price & Returns`. -/
theorem claim_C6 (key : String) :
    WebServer.classifyIndicator key = SingleStock.classifyIndicator key
    ∧ (CliMain.classifyIndicator key = WebServer.classifyIndicator key
      ∨ (strContains (lowerStr key) "recommendation" = true
        ∧ CliMain.classifyIndicator key = "3rd Party Recommendation"
        ∧ WebServer.classifyIndicator key = "Price & Returns")) :=
  ⟨classify_web_eq_single key, classify_cli_cases key⟩

/-- C7 counterexample: the enforced budget is the length (26) of the
override value for `3MonthAvgDailyReturnStdDev`, not the length of the
longest override value (`FinnhubRecommendationCounts`, 27): that longest
override value itself gets hard-truncated to `FinnhubRecommendationCoun…`. -/
theorem claim_C7_counterexample :
    WebServer.labelForKey "recommendation_counts" = "FinnhubRecommendationCoun…"
    ∧ ("FinnhubRecommendationCounts" : String).length = 27
    ∧ WebServer.budgetSourceValue.length = 26
    ∧ "FinnhubRecommendationCounts" ∈ WebServer.labelOverrides.map (fun p => p.2)
    ∧ WebServer.labelForKey "recommendation_counts" ≠ "FinnhubRecommendationCounts" :=
  ⟨by decide, by decide, by decide, by decide, by decide⟩

/-- C7 amended: the label budget is the length of the
`3MonthAvgDailyReturnStdDev` override value (26 characters), and every
label the web generator returns fits in it. -/
theorem claim_C7 (key : String) :
    (WebServer.labelForKey key).length ≤ WebServer.budgetSourceValue.length := by
  have h := labelForKey_length_le key
  have hb : WebServer.budgetSourceValue.length = 26 := by decide
  omega

/-- C8: a Python `None` never survives serialization: both `as_dict`
methods only emit non-`None` values, any key of the merged base map whose
value is `None` is omitted from the output, and the snapshot omits the
`analysis` key entirely when `analysis` is `None`. -/
theorem claim_C8 :
    (∀ (tsR : Rat → Option String) (b : StockBaseIndicators)
        (p : String × PyVal), p ∈ baseAsDict tsR b → p.2.isNone = false)
    ∧ (∀ (a : StockAnalysisIndicators) (p : String × PyVal),
        p ∈ analysisAsDict a → p.2.isNone = false)
    ∧ (∀ (tsR : Rat → Option String) (b : StockBaseIndicators) (k : String),
        dictGet (mergedBase b) k = some PyVal.vnone →
        k ∉ (baseAsDict tsR b).map Prod.fst)
    ∧ (∀ (tsR : Rat → Option String) (s : StockIndicatorSnapshot),
        s.analysis = none →
        "analysis" ∉ (snapshotAsDict tsR s).map Prod.fst) :=
  ⟨baseAsDict_values_not_none, analysisAsDict_values_not_none,
   baseAsDict_omits_none, snapshotAsDict_no_analysis⟩

/-- A sample base-indicator record: only the symbol is set and the free-form
`extra` dict carries an explicit `None` under the key `x`. -/
def c8SampleBase : StockBaseIndicators :=
  { symbol := "T", extra := [("x", PyVal.vnone)] }

/-- A sample analysis-indicator record with only the symbol set. -/
def c8SampleAnalysis : StockAnalysisIndicators := { symbol := "T" }

/-- A sample snapshot with no analysis part. -/
def c8SampleSnapshot : StockIndicatorSnapshot :=
  { symbol := "T", base := c8SampleBase, analysis := none }

/-- C8 witness: on the sample records, serialized entries are non-`None`,
the `None`-valued key `x` is dropped, and the `analysis` key is absent. -/
theorem claim_C8_witness :
    ((("symbol", PyVal.vstr "T") ∈ baseAsDict (fun _ => none) c8SampleBase)
      ∧ (PyVal.vstr "T").isNone = false)
    ∧ ((("symbol", PyVal.vstr "T") ∈ analysisAsDict c8SampleAnalysis)
      ∧ (PyVal.vstr "T").isNone = false)
    ∧ (dictGet (mergedBase c8SampleBase) "x" = some PyVal.vnone
      ∧ "x" ∉ (baseAsDict (fun _ => none) c8SampleBase).map Prod.fst)
    ∧ (c8SampleSnapshot.analysis = none
      ∧ "analysis" ∉ (snapshotAsDict (fun _ => none) c8SampleSnapshot).map
          Prod.fst) := by
  have hmb : ("symbol", PyVal.vstr "T") ∈ baseAsDict (fun _ => none) c8SampleBase := by
    show ("symbol", PyVal.vstr "T") ∈ [("symbol", PyVal.vstr "T")]
    exact List.mem_cons_self _ _
  have hma : ("symbol", PyVal.vstr "T") ∈ analysisAsDict c8SampleAnalysis := by
    show ("symbol", PyVal.vstr "T") ∈ [("symbol", PyVal.vstr "T")]
    exact List.mem_cons_self _ _
  have hget : dictGet (mergedBase c8SampleBase) "x" = some PyVal.vnone := rfl
  exact ⟨⟨hmb, claim_C8.1 (fun _ => none) c8SampleBase _ hmb⟩,
    ⟨hma, claim_C8.2.1 c8SampleAnalysis _ hma⟩,
    ⟨hget, claim_C8.2.2.1 (fun _ => none) c8SampleBase "x" hget⟩,
    ⟨rfl, claim_C8.2.2.2 (fun _ => none) c8SampleSnapshot rfl⟩⟩

/-- C9 counterexample: the default branch formats only Python floats; the
integer 3 under a rule-free key passes through unchanged instead of
becoming the text `3.00`. -/
theorem claim_C9_counterexample :
    formatRuleMatches "foo" = false
    ∧ formatBaseValue (fun _ => none) "foo" (PyVal.vint 3) = PyVal.vint 3
    ∧ PyVal.vint 3 ≠ PyVal.vstr "3.00" :=
  ⟨by decide, rfl, fun h => PyVal.noConfusion h⟩

/-- C9 amended: in the default case (no exact-key override, fixed category
set, or keyword rule), float values get two-decimal fixed formatting and
every other value — integers included — is returned unchanged. -/
theorem claim_C9 (tsR : Rat → Option String) (key : String)
    (h : formatRuleMatches key = false) :
    (∀ q : Rat, formatBaseValue tsR key (PyVal.vfloat q) = PyVal.vstr (fmt2 q))
    ∧ (∀ n : Int, formatBaseValue tsR key (PyVal.vint n) = PyVal.vint n)
    ∧ (∀ s : String, formatBaseValue tsR key (PyVal.vstr s) = PyVal.vstr s)
    ∧ (∀ d, formatBaseValue tsR key (PyVal.vdict d) = PyVal.vdict d) :=
  ⟨fun q => formatBaseValue_default tsR key (PyVal.vfloat q) h,
   fun n => formatBaseValue_default tsR key (PyVal.vint n) h,
   fun s => formatBaseValue_default tsR key (PyVal.vstr s) h,
   fun d => formatBaseValue_default tsR key (PyVal.vdict d) h⟩

/-- C9 witness: the rule-free key `foo` formats the float 3.5 to the text
`3.50` and passes the integer 3 through unchanged. -/
theorem claim_C9_witness :
    formatRuleMatches "foo" = false
    ∧ formatBaseValue (fun _ => none) "foo" (PyVal.vfloat (mkRat 7 2))
        = PyVal.vstr "3.50"
    ∧ formatBaseValue (fun _ => none) "foo" (PyVal.vint 3) = PyVal.vint 3 := by
  refine ⟨by decide, ?_, ?_⟩
  · rw [(claim_C9 (fun _ => none) "foo" (by decide)).1 (mkRat 7 2)]
    rfl
  · exact (claim_C9 (fun _ => none) "foo" (by decide)).2.1 3

/-- C10: the latest row is `none` for no rows; in general it is the last
row, in input order, whose period string (rows without a period count as
the empty string) equals the lexicographic maximum — later rows replace
earlier ones on equal periods because the scan compares with
greater-or-equal; `maxPeriod` really is an upper bound of all periods; and
with no recommendation rows the built `extra` map carries neither a
`recommendation` nor a `recommendation_counts` entry. -/
theorem claim_C10 :
    (∀ fps : PyVal → String, latestRow fps ([] : List RecRow) = none)
    ∧ (∀ (fps : PyVal → String) (rows : List RecRow),
        latestRow fps rows = specLatestRow fps rows)
    ∧ (∀ (fps : PyVal → String) (rows : List RecRow) (r : RecRow), r ∈ rows →
        strLeB (rowPeriod fps r) (maxPeriod fps rows) = true)
    ∧ (∀ (fps : PyVal → String) (symbol : String)
        (quote profile metrics : List (String × PyVal))
        (includeAnalysis : Bool),
        "recommendation" ∉
          (buildBaseIndicators fps symbol quote profile metrics []
            includeAnalysis).extra.map Prod.fst
        ∧ "recommendation_counts" ∉
          (buildBaseIndicators fps symbol quote profile metrics []
            includeAnalysis).extra.map Prod.fst) := by
  refine ⟨fun fps => rfl, latestRow_eq_spec, maxPeriod_is_ub, ?_⟩
  intro fps symbol quote profile metrics ia
  have hextra : (buildBaseIndicators fps symbol quote profile metrics []
      ia).extra = buildExtra fps quote metrics [] ia := by
    cases ia <;> rfl
  rw [hextra]
  constructor
  · intro hmem
    rcases buildExtra_empty_rows_keys fps quote metrics ia _ hmem with
      h | h | h | h | h
    · exact absurd h (by decide)
    · exact absurd h (by decide)
    · exact absurd h (by decide)
    · exact absurd h (by decide)
    · exact absurd h (by decide)
  · intro hmem
    rcases buildExtra_empty_rows_keys fps quote metrics ia _ hmem with
      h | h | h | h | h
    · exact absurd h (by decide)
    · exact absurd h (by decide)
    · exact absurd h (by decide)
    · exact absurd h (by decide)
    · exact absurd h (by decide)

/-- C10 witness: on a one-row list the single row's period is bounded by
the maximum period. -/
theorem claim_C10_witness :
    ([("period", PyVal.vstr "2024-06-30")] : RecRow)
        ∈ [([("period", PyVal.vstr "2024-06-30")] : RecRow)]
    ∧ strLeB (rowPeriod (fun _ => "") [("period", PyVal.vstr "2024-06-30")])
        (maxPeriod (fun _ => "") [[("period", PyVal.vstr "2024-06-30")]])
        = true :=
  ⟨List.mem_cons_self _ _,
   claim_C10.2.2.1 (fun _ => "") [[("period", PyVal.vstr "2024-06-30")]]
     [("period", PyVal.vstr "2024-06-30")] (List.mem_cons_self _ _)⟩
